import Mathlib

/-
  Verification development for the 750-Picacho-Lightfiction rendering
  pipeline (src/src/adjustments.py, src/src/processing.py, src/src/main.py).

  Shallow embedding conventions:
  * Python floats are modelled as exact rationals (ℚ).
  * 8-bit pixel channels are ℕ values; `uint8` casts of non-negative floats
    truncate, modelled with `Int.toNat ∘ Int.floor`.
  * Python's banker's rounding `round` is modelled by `pyRound`.
  * Pillow buffers are modelled by `Img`: dimensions, mode, a total pixel
    function and an allocation identifier `id` (each allocating primitive
    takes a `fresh` identifier for the buffer it returns, modelling that
    Pillow returns a newly allocated object).
  * External Pillow filter/enhancer primitives whose pixel math the
    repository does not define (Gaussian blur, unsharp mask, the
    `ImageEnhance` classes, `ImageOps.contain`) and `os.path` joining are
    modelled parametrically by the `ExtOps` structure.
  * Fallible code returns `Except PError`.
-/

set_option autoImplicit false

/-- `adjustments._clamp`: Python `max(minimum, min(maximum, value))`. -/
def _clamp (value minimum maximum : ℚ) : ℚ :=
  max minimum (min maximum value)

/-- Python's built-in `round` on an exact rational: round half to even. -/
def pyRound (q : ℚ) : ℤ :=
  if q - (⌊q⌋ : ℚ) < 1/2 then ⌊q⌋
  else if 1/2 < q - (⌊q⌋ : ℚ) then ⌊q⌋ + 1
  else if ⌊q⌋ % 2 = 0 then ⌊q⌋ else ⌊q⌋ + 1

theorem pyRound_eq_floor_or_succ (q : ℚ) :
    pyRound q = ⌊q⌋ ∨ pyRound q = ⌊q⌋ + 1 := by
  unfold pyRound
  split_ifs <;> simp

theorem floor_le_pyRound (q : ℚ) : ⌊q⌋ ≤ pyRound q := by
  rcases pyRound_eq_floor_or_succ q with h | h <;> omega

theorem pyRound_le_floor_succ (q : ℚ) : pyRound q ≤ ⌊q⌋ + 1 := by
  rcases pyRound_eq_floor_or_succ q with h | h <;> omega

theorem pyRound_cast_le (q : ℚ) : (pyRound q : ℚ) ≤ q + 1/2 := by
  unfold pyRound
  have hf : (⌊q⌋ : ℚ) ≤ q := Int.floor_le q
  split_ifs with h1 h2 h3 <;> push_cast <;> linarith

theorem le_pyRound_cast (q : ℚ) : q - 1/2 ≤ (pyRound q : ℚ) := by
  unfold pyRound
  have hf : q < (⌊q⌋ : ℚ) + 1 := Int.lt_floor_add_one q
  split_ifs with h1 h2 h3 <;> push_cast <;> linarith

theorem pyRound_intCast (n : ℤ) : pyRound (n : ℚ) = n := by
  unfold pyRound
  have h1 : ⌊(n : ℚ)⌋ = n := Int.floor_intCast n
  rw [h1, sub_self]
  norm_num

theorem pyRound_nonneg {q : ℚ} (h : 0 ≤ q) : 0 ≤ pyRound q := by
  have h1 : (0 : ℤ) ≤ ⌊q⌋ := Int.floor_nonneg.mpr h
  have h2 := floor_le_pyRound q
  omega

theorem pyRound_le_of_lt_int {q : ℚ} {n : ℤ} (h : q < (n : ℚ)) :
    pyRound q ≤ n := by
  have h1 : (pyRound q : ℚ) ≤ q + 1/2 := pyRound_cast_le q
  have h2 : (pyRound q : ℚ) < (n : ℚ) + 1 := by linarith
  have h3 : pyRound q < n + 1 := by exact_mod_cast h2
  omega

theorem pyRound_mono {p q : ℚ} (h : p ≤ q) : pyRound p ≤ pyRound q := by
  rcases lt_or_eq_of_le (Int.floor_le_floor h) with hf | hf
  · have h1 := pyRound_le_floor_succ p
    have h2 := floor_le_pyRound q
    omega
  · have hp : p - (⌊p⌋ : ℚ) ≤ q - (⌊q⌋ : ℚ) := by
      have : (⌊p⌋ : ℚ) = (⌊q⌋ : ℚ) := by exact_mod_cast hf
      linarith
    unfold pyRound
    rw [hf]
    split_ifs <;> first | omega | linarith

theorem pyRound_zero : pyRound 0 = 0 := pyRound_intCast 0

/-- Fixed-point multiply-divide by 255 with rounding, Pillow's
`MULDIV255` macro: `tmp = a*b + 128; ((tmp >> 8) + tmp) >> 8`. -/
def muldiv255 (a b : ℕ) : ℕ :=
  let tmp := a * b + 128
  (tmp / 256 + tmp) / 256

/-! ## Image buffer model -/

/-- Pillow image modes used by the pipeline modules. -/
inductive PMode where
  | RGB
  | RGBA
  | L
deriving DecidableEq, Repr

/-- One pixel; unused channels of a mode are junk and ignored by `ImgEq`. -/
structure Px where
  r : ℕ
  g : ℕ
  b : ℕ
  a : ℕ
deriving DecidableEq, Repr

/-- A Pillow image buffer: allocation identifier, dimensions, mode and a
total pixel function. -/
structure Img where
  id : ℕ
  w : ℕ
  h : ℕ
  mode : PMode
  px : ℕ → ℕ → Px

/-- Number of meaningful channels of a mode. -/
def numChannels : PMode → ℕ
  | .RGB => 3
  | .RGBA => 4
  | .L => 1

/-- Channel `c` of a pixel (0 = r, 1 = g, 2 = b, 3 = a). -/
def chanVal (p : Px) : ℕ → ℕ
  | 0 => p.r
  | 1 => p.g
  | 2 => p.b
  | 3 => p.a
  | _ => 0

/-- Content equality of two buffers: same mode, same dimensions, and equal
values on every meaningful channel of every in-bounds pixel. -/
def ImgEq (i j : Img) : Prop :=
  i.mode = j.mode ∧ i.w = j.w ∧ i.h = j.h ∧
    ∀ x < i.w, ∀ y < i.h, ∀ c < numChannels i.mode,
      chanVal (i.px x y) c = chanVal (j.px x y) c

instance (i j : Img) : Decidable (ImgEq i j) := by
  unfold ImgEq
  infer_instance

/-- All meaningful channel values are valid 8-bit values. -/
def Img.Valid (i : Img) : Prop :=
  ∀ x < i.w, ∀ y < i.h, ∀ c < numChannels i.mode, chanVal (i.px x y) c ≤ 255

instance (i : Img) : Decidable i.Valid := by
  unfold Img.Valid
  infer_instance

/-- `uint8` cast of a (clipped, non-negative) float: truncation. -/
def toU8 (q : ℚ) : ℕ := (⌊q⌋).toNat

/-- `np.clip(x, lo, hi)`. -/
def npClip (x lo hi : ℚ) : ℚ := min hi (max lo x)

/-- Pillow's RGB → L conversion (ITU-R 601-2 fixed point):
`(r*19595 + g*38470 + b*7471 + 0x8000) >> 16`. -/
def l24 (r g b : ℕ) : ℕ := (r * 19595 + g * 38470 + b * 7471 + 32768) / 65536

/-- `Image.copy`: a freshly allocated buffer with identical content. -/
def Img.copy (img : Img) (fresh : ℕ) : Img := { img with id := fresh }

/-- `Image.convert` between the modelled modes (allocation id untracked:
conversions only occur inside primitives that fix the final id). -/
def convertMode (img : Img) (m : PMode) : Img :=
  match img.mode, m with
  | .RGB, .RGB => img
  | .RGBA, .RGBA => img
  | .L, .L => img
  | .RGB, .RGBA =>
      { img with
        mode := .RGBA
        px := fun x y => { img.px x y with a := 255 } }
  | .RGBA, .RGB =>
      { img with
        mode := .RGB
        px := fun x y => { img.px x y with a := 255 } }
  | .RGB, .L =>
      { img with
        mode := .L
        px := fun x y => ⟨l24 (img.px x y).r (img.px x y).g (img.px x y).b, 0, 0, 0⟩ }
  | .RGBA, .L =>
      { img with
        mode := .L
        px := fun x y => ⟨l24 (img.px x y).r (img.px x y).g (img.px x y).b, 0, 0, 0⟩ }
  | .L, .RGB =>
      { img with
        mode := .RGB
        px := fun x y => ⟨(img.px x y).r, (img.px x y).r, (img.px x y).r, 255⟩ }
  | .L, .RGBA =>
      { img with
        mode := .RGBA
        px := fun x y => ⟨(img.px x y).r, (img.px x y).r, (img.px x y).r, 255⟩ }

/-- `Image.new(mode, size, color)`. -/
def Img.new (m : PMode) (size : ℕ × ℕ) (color : Px) (fresh : ℕ) : Img :=
  ⟨fresh, size.1, size.2, m, fun _ _ => color⟩

/-- `Image.crop(box)`: a fresh buffer of the box's size; out-of-source
pixels are zero-filled, as in Pillow. -/
def Img.crop (img : Img) (box : ℤ × ℤ × ℤ × ℤ) (fresh : ℕ) : Img :=
  ⟨fresh, (box.2.2.1 - box.1).toNat, (box.2.2.2 - box.2.1).toNat, img.mode,
    fun x y =>
      let sx : ℤ := (x : ℤ) + box.1
      let sy : ℤ := (y : ℤ) + box.2.1
      if 0 ≤ sx ∧ sx < (img.w : ℤ) ∧ 0 ≤ sy ∧ sy < (img.h : ℤ) then
        img.px sx.toNat sy.toNat
      else ⟨0, 0, 0, 0⟩⟩

/-- Alpha blend of one pixel by mask value `m` (Pillow's `BLEND` macro). -/
def blendPx (pb ps : Px) (m : ℕ) : Px :=
  ⟨muldiv255 pb.r (255 - m) + muldiv255 ps.r m,
   muldiv255 pb.g (255 - m) + muldiv255 ps.g m,
   muldiv255 pb.b (255 - m) + muldiv255 ps.b m,
   muldiv255 pb.a (255 - m) + muldiv255 ps.a m⟩

/-- `background.paste(src, (ox, oy))`: opaque paste, mutating the
background's pixels inside the pasted rectangle. -/
def pasteAt (bg src : Img) (ox oy : ℤ) : Img :=
  { bg with px := fun x y =>
      if ox ≤ (x : ℤ) ∧ (x : ℤ) < ox + src.w ∧ oy ≤ (y : ℤ) ∧ (y : ℤ) < oy + src.h then
        src.px ((x : ℤ) - ox).toNat ((y : ℤ) - oy).toNat
      else bg.px x y }

/-- `background.paste(src, (ox, oy), src)`: paste using the source's own
alpha channel as mask. -/
def pasteMaskedAt (bg src : Img) (ox oy : ℤ) : Img :=
  { bg with px := fun x y =>
      if ox ≤ (x : ℤ) ∧ (x : ℤ) < ox + src.w ∧ oy ≤ (y : ℤ) ∧ (y : ℤ) < oy + src.h then
        let sp := src.px ((x : ℤ) - ox).toNat ((y : ℤ) - oy).toNat
        blendPx (bg.px x y) sp sp.a
      else bg.px x y }

/-- `Image.blend(im1, im2, alpha)` pixel math: `in1 + alpha*(in2-in1)`,
clipped to 8 bits. -/
def Img.blend (im1 im2 : Img) (alpha : ℚ) (fresh : ℕ) : Img :=
  { im1 with
    id := fresh
    px := fun x y =>
      let p1 := im1.px x y
      let p2 := im2.px x y
      let f : ℕ → ℕ → ℕ := fun v1 v2 =>
        toU8 (npClip ((v1 : ℚ) + alpha * ((v2 : ℚ) - (v1 : ℚ))) 0 255)
      ⟨f p1.r p2.r, f p1.g p2.g, f p1.b p2.b, f p1.a p2.a⟩ }

/-- External Pillow / OS primitives the repository calls but does not
define; the development is parametric in them. -/
structure ExtOps where
  /-- `PIL.ImageOps.contain(image, size, method)`. -/
  contain : Img → ℕ × ℕ → Img
  /-- `ImageFilter.GaussianBlur(radius)` applied by `Image.filter`. -/
  gaussianBlur : ℚ → Img → Img
  /-- `ImageFilter.UnsharpMask(radius, percent, threshold)` applied by
  `Image.filter`. -/
  unsharpMask : ℚ → ℕ → ℕ → Img → Img
  /-- `ImageEnhance.Sharpness(img).enhance(f)`. -/
  sharpness : Img → ℚ → Img
  /-- `ImageEnhance.Brightness(img).enhance(f)`. -/
  brightness : Img → ℚ → Img
  /-- `ImageEnhance.Contrast(img).enhance(f)`. -/
  contrastEnh : Img → ℚ → Img
  /-- `ImageEnhance.Color(img).enhance(f)`. -/
  colorEnh : Img → ℚ → Img
  /-- `os.path.join(os.path.dirname(base), rel)` for a relative mask path. -/
  joinPath : String → String → String

/-! ## src/adjustments.py -/

/-- Pipeline error taxonomy (each constructor models one raised Python
exception kind caught at the task boundary). -/
inductive PError where
  | notFound (msg : String)
  | invalidParam (msg : String)
  | keyError (msg : String)
deriving Repr, DecidableEq

/-- `_ensure_rgb`: a copy of the image in RGB mode, preserving alpha. -/
def _ensure_rgb (image : Img) : Img :=
  match image.mode with
  | .RGB => image
  | .RGBA => image
  | .L => convertMode image .RGB

/-- `_split_alpha`: RGB base plus the alpha channel when present. -/
def _split_alpha (image : Img) : Img × Option (ℕ → ℕ → ℕ) :=
  match image.mode with
  | .RGBA => (convertMode image .RGB, some fun x y => (image.px x y).a)
  | _ => (_ensure_rgb image, none)

/-- `_recombine_alpha`: merge a processed RGB buffer back with the split
alpha channel and convert to the original mode. -/
def _recombine_alpha (rgb : Img) (alpha : Option (ℕ → ℕ → ℕ)) (original_mode : PMode) : Img :=
  match alpha with
  | none =>
      match original_mode with
      | .RGB => rgb
      | m => convertMode rgb m
  | some a =>
      let merged :=
        { rgb with
          mode := PMode.RGBA
          px := fun x y => { rgb.px x y with a := a x y } }
      match original_mode with
      | .RGBA => merged
      | m => convertMode merged m

/-- `_resolve_enhance_factor`: Pillow enhancement factor honoring legacy
additive inputs. -/
def _resolve_enhance_factor (value : ℚ) : ℚ :=
  if -1 ≤ value ∧ value ≤ 1 then 1 + value
  else if value < 0 then 0
  else value

/-- `apply_temperature_shift`: warm (+) or cool (-) by channel gains. -/
def apply_temperature_shift (image : Img) (mired_shift : ℚ) (fresh : ℕ) : Img :=
  if mired_shift = 0 then image.copy fresh
  else
    let sp := _split_alpha image
    let gain := max (1/10) (min 10 (1 + mired_shift / 100))
    let red_gain := gain
    let blue_gain := 1 / gain
    let warmed : Img :=
      { sp.1 with
        id := fresh
        px := fun x y =>
          let p := sp.1.px x y
          ⟨toU8 (npClip ((p.r : ℚ) * red_gain) 0 255),
           toU8 (npClip ((p.g : ℚ) * 1) 0 255),
           toU8 (npClip ((p.b : ℚ) * blue_gain) 0 255), 0⟩ }
    _recombine_alpha warmed sp.2 image.mode

/-- Per-channel math of `apply_shadow_lift` on one 8-bit value. -/
def shadow_lift_val (amount : ℚ) (v : ℕ) : ℕ :=
  let q : ℚ := (v : ℚ) / 255
  let shadow_mask := 1 - npClip (q / (1/2)) 0 1
  toU8 (npClip (q + amount * shadow_mask) 0 1 * 255)

/-- `apply_shadow_lift`: mix dark pixels toward mid-tones. -/
def apply_shadow_lift (image : Img) (amount : ℚ) (fresh : ℕ) : Img :=
  if amount = 0 then image.copy fresh
  else
    let amt := max 0 (min 1 amount)
    let sp := _split_alpha image
    let result : Img :=
      { sp.1 with
        id := fresh
        px := fun x y =>
          let p := sp.1.px x y
          ⟨shadow_lift_val amt p.r, shadow_lift_val amt p.g, shadow_lift_val amt p.b, 0⟩ }
    _recombine_alpha result sp.2 image.mode

/-- Per-channel math of `apply_highlight_lift` on one 8-bit value. -/
def highlight_lift_val (amount : ℚ) (v : ℕ) : ℕ :=
  let q : ℚ := (v : ℚ) / 255
  let highlight_mask := npClip ((q - 1/2) / (1/2)) 0 1
  toU8 (npClip (q + amount * highlight_mask * (1 - q)) 0 1 * 255)

/-- `apply_highlight_lift`: lift highlights toward white. -/
def apply_highlight_lift (image : Img) (amount : ℚ) (fresh : ℕ) : Img :=
  if amount = 0 then image.copy fresh
  else
    let amt := max 0 (min 1 amount)
    let sp := _split_alpha image
    let result : Img :=
      { sp.1 with
        id := fresh
        px := fun x y =>
          let p := sp.1.px x y
          ⟨highlight_lift_val amt p.r, highlight_lift_val amt p.g,
           highlight_lift_val amt p.b, 0⟩ }
    _recombine_alpha result sp.2 image.mode

/-- `apply_local_contrast`: unsharp-mask style local contrast; the amount
is `Option` because the Python parameter is checked against `None`. -/
def apply_local_contrast (E : ExtOps) (image : Img) (amount : Option ℚ)
    (radius : ℚ := 2) (fresh : ℕ := 0) : Img :=
  match amount with
  | none => image.copy fresh
  | some amt =>
    if amt = 1 then image.copy fresh
    else
      let base := image.copy fresh
      if 1 < amt then
        let percent : ℤ := min 500 (max 0 ⌊(amt - 1) * 200⌋)
        if percent = 0 then base
        else E.unsharpMask radius percent.toNat 0 base
      else
        Img.blend base (E.gaussianBlur radius base) (max 0 (min 1 (1 - amt))) fresh

/-- The `Union[Image.Image, np.ndarray]` mask argument of
`inpaint_with_mask`. -/
inductive MaskArg where
  | image (m : Img)
  | array (w h : ℕ) (data : ℕ → ℕ → ℕ)

/-- `inpaint_with_mask`: blend a blurred infill plate into masked regions
using a feathered, strength-scaled mask. -/
def inpaint_with_mask (E : ExtOps) (image : Img) (mask : MaskArg)
    (blur_radius : ℚ := 25) (feather_radius : ℚ := 8) (strength : ℚ := 1)
    (fresh : ℕ := 0) : Img :=
  let sp := _split_alpha image
  let base_rgb := sp.1
  let mask_image : Img :=
    match mask with
    | .image m => convertMode m .L
    | .array w h data => ⟨0, w, h, .L, fun x y => ⟨data x y % 256, 0, 0, 0⟩⟩
  let mask_image :=
    if 0 < feather_radius then E.gaussianBlur feather_radius mask_image
    else mask_image
  let mask_arr : ℕ → ℕ → ℚ := fun x y =>
    ((mask_image.px x y).r : ℚ) / 255 * max 0 (min 1 strength)
  let blurred := E.gaussianBlur (max 0 blur_radius) base_rgb
  let filled : Img :=
    { base_rgb with
      id := fresh
      px := fun x y =>
        let blend := mask_arr x y
        let f : ℕ → ℕ → ℕ := fun vb vi =>
          toU8 (npClip ((vb : ℚ) * (1 - blend) + (vi : ℚ) * blend) 0 255)
        ⟨f (base_rgb.px x y).r (blurred.px x y).r,
         f (base_rgb.px x y).g (blurred.px x y).g,
         f (base_rgb.px x y).b (blurred.px x y).b, 0⟩ }
  _recombine_alpha filled sp.2 image.mode

/-- `enhance_material_definition`: clarity / micro-contrast / depth /
sheen bundle. -/
def enhance_material_definition (E : ExtOps) (image : Img)
    (clarity : ℚ := 6/5) (micro_contrast : ℚ := 23/20)
    (depth : ℚ := 21/20) (sheen : ℚ := 21/20) (fresh : ℕ := 0) : Img :=
  let sp := _split_alpha image
  let result := sp.1.copy fresh
  let result := if clarity ≠ 1 then E.sharpness result (max 0 clarity) else result
  let result :=
    if micro_contrast ≠ 1 then
      let micro := max 0 micro_contrast
      if 1 < micro then
        let percent : ℤ := min 500 (max 0 ⌊(micro - 1) * 250⌋)
        if percent ≠ 0 then E.unsharpMask (8/5) percent.toNat 2 result else result
      else
        Img.blend result (E.gaussianBlur (6/5) result) (max 0 (min 1 (1 - micro))) fresh
    else result
  let result := if depth ≠ 1 then E.contrastEnh result (max 0 depth) else result
  let result := if sheen ≠ 1 then E.colorEnh result (max 0 sheen) else result
  _recombine_alpha result sp.2 image.mode

/-- The grading parameter dictionary of `apply_grading` (absent keys are
`none`). -/
structure Grading where
  exposure : Option ℚ := none
  contrast : Option ℚ := none
  saturation : Option ℚ := none
  temperature_shift : Option ℚ := none
  shadow_lift : Option ℚ := none
  highlight_lift : Option ℚ := none
  micro_contrast : Option ℚ := none
  local_contrast : Option ℚ := none

/-- `apply_grading`: apply grading primitives in a predictable order; a
falsy (`None` / empty) grading dict is `none`. -/
def apply_grading (E : ExtOps) (image : Img) (grading : Option Grading)
    (fresh : ℕ := 0) : Img :=
  match grading with
  | none => image.copy fresh
  | some g =>
    let result := image.copy fresh
    let result :=
      match g.exposure with
      | none => result
      | some e => E.brightness result (1 + e)
    let result :=
      match g.contrast with
      | none => result
      | some c => E.contrastEnh result (_resolve_enhance_factor c)
    let result :=
      match g.saturation with
      | none => result
      | some s => E.colorEnh result (_resolve_enhance_factor s)
    let result :=
      match g.temperature_shift with
      | none => result
      | some t => if t = 0 then result else apply_temperature_shift result t fresh
    let result :=
      match g.shadow_lift with
      | none => result
      | some s => if s = 0 then result else apply_shadow_lift result s fresh
    let result :=
      match g.highlight_lift with
      | none => result
      | some hl => if hl = 0 then result else apply_highlight_lift result hl fresh
    let mc :=
      match g.micro_contrast with
      | some v => some v
      | none => g.local_contrast
    match mc with
    | none => result
    | some v => apply_local_contrast E result (some v) 2 fresh

/-- `CROP_PRESETS`: preset names to target aspect ratios. -/
def CROP_PRESETS : List (String × ℕ × ℕ) :=
  [("hero_21x9", (21, 9)), ("card_4x3", (4, 3)),
   ("web_16x9", (16, 9)), ("square_1x1", (1, 1))]

/-- `_normalize_offset`: validated `(x, y)` focal offset in `[-1, 1]`. -/
def _normalize_offset (offset : Option (ℚ × ℚ)) : ℚ × ℚ :=
  match offset with
  | none => (0, 0)
  | some (x, y) => (_clamp x (-1) 1, _clamp y (-1) 1)

/-- `_crop_box`: crop box for original dimensions and target ratio. -/
def _crop_box (original : ℕ × ℕ) (target_ratio : ℚ) (offset : ℚ × ℚ) :
    ℤ × ℤ × ℤ × ℤ :=
  let width := original.1
  let height := original.2
  if width = 0 ∨ height = 0 then (0, 0, (width : ℤ), (height : ℤ))
  else
    let current_ratio : ℚ := (width : ℚ) / (height : ℚ)
    if |current_ratio - target_ratio| < 1/1000000 then
      (0, 0, (width : ℤ), (height : ℤ))
    else if target_ratio < current_ratio then
      let new_width := pyRound ((height : ℚ) * target_ratio)
      let available : ℤ := (width : ℤ) - new_width
      let offset_x := (offset.1 + 1) / 2
      let left := pyRound ((available : ℚ) * offset_x)
      let left := max 0 (min ((width : ℤ) - new_width) left)
      (left, 0, left + new_width, (height : ℤ))
    else
      let new_height := pyRound ((width : ℚ) / target_ratio)
      let available : ℤ := (height : ℤ) - new_height
      let offset_y := (offset.2 + 1) / 2
      let top := pyRound ((available : ℚ) * offset_y)
      let top := max 0 (min ((height : ℤ) - new_height) top)
      (0, top, (width : ℤ), top + new_height)

/-- `crop_to_aspect`: crop an image to the supplied aspect ratio. -/
def crop_to_aspect (image : Img) (aspect : ℕ × ℕ)
    (offset : Option (ℚ × ℚ) := none) (fresh : ℕ := 0) : Img :=
  let target_ratio : ℚ := (aspect.1 : ℚ) / (aspect.2 : ℚ)
  let normalized_offset := _normalize_offset offset
  image.crop (_crop_box (image.w, image.h) target_ratio normalized_offset) fresh

/-- `apply_crop_preset`: apply a named crop preset; unknown preset names
raise `KeyError`. -/
def apply_crop_preset (image : Img) (preset : String)
    (offset : Option (ℚ × ℚ) := none) (fresh : ℕ := 0) : Except PError Img :=
  match List.lookup preset CROP_PRESETS with
  | none => .error (.keyError preset)
  | some aspect => .ok (crop_to_aspect image aspect offset fresh)

/-! ## src/config.py -/

/-- `DCI_4K_RESOLUTION`. -/
def DCI_4K_RESOLUTION : ℕ × ℕ := (4096, 2160)

/-- `ASPECT_RATIO_PRESETS`. -/
def ASPECT_RATIO_PRESETS : List (String × ℕ × ℕ) :=
  [("dci_4k", (4096, 2160)), ("square_1080", (1080, 1080)),
   ("vertical_story", (1080, 1920)), ("ultrawide", (5120, 2160))]

/-! ## src/processing.py -/

/-- The file system seen by `load_image` / `save_image` / `_resolve_mask`:
decoded image files by path. -/
def FS : Type := String → Option Img

/-- `load_image`: raises `FileNotFoundError` when the path is absent. -/
def load_image (fs : FS) (filepath : String) : Except PError Img :=
  match fs filepath with
  | none => .error (.notFound filepath)
  | some image => .ok image

/-- `save_image`: write the buffer at the path (quality only affects the
encoded bytes, not the modelled pixel content). -/
def save_image (fs : FS) (image : Img) (filepath : String) (_quality : ℤ := 95) : FS :=
  fun p => if p = filepath then some image else fs p

/-- `_background_color_for_mode`. -/
def _background_color_for_mode : PMode → Px
  | .RGBA => ⟨0, 0, 0, 0⟩
  | .RGB => ⟨0, 0, 0, 0⟩
  | .L => ⟨0, 0, 0, 0⟩

/-- `resize_image`: fit inside the target preserving aspect ratio, then
letterbox/pillarbox onto a canvas of exactly the target size. -/
def resize_image (E : ExtOps) (image : Img)
    (target_size : ℕ × ℕ := DCI_4K_RESOLUTION) (fresh : ℕ := 0) : Img :=
  if (image.w, image.h) = target_size then image.copy fresh
  else
    let contained := E.contain image target_size
    if (contained.w, contained.h) = target_size then contained
    else
      let background :=
        Img.new contained.mode target_size (_background_color_for_mode contained.mode) fresh
      let offset_x : ℤ := Int.fdiv ((target_size.1 : ℤ) - (contained.w : ℤ)) 2
      let offset_y : ℤ := Int.fdiv ((target_size.2 : ℤ) - (contained.h : ℤ)) 2
      if contained.mode = .RGBA then pasteMaskedAt background contained offset_x offset_y
      else pasteAt background contained offset_x offset_y

/-- A mask reference in an inpaint operation: inline image or path. -/
inductive MaskRef where
  | image (m : Img)
  | path (p : String)

/-- `_resolve_mask`: inline masks are converted to L; path references are
resolved against the source image's directory and must exist. -/
def _resolve_mask (E : ExtOps) (fs : FS) (mask_reference : MaskRef)
    (base_image_path : String) : Except PError Img :=
  match mask_reference with
  | .image m => .ok (convertMode m .L)
  | .path p =>
      match fs (E.joinPath base_image_path p) with
      | none => .error (.notFound ("Mask file not found: " ++ p))
      | some m => .ok (convertMode m .L)

/-- One parsed operation mapping: the closed set of keys the executor
reads; an absent key is `none`. -/
structure Operation where
  type? : Option String := none
  preset? : Option String := none
  width? : Option ℕ := none
  height? : Option ℕ := none
  offset? : Option (ℚ × ℚ) := none
  mask? : Option MaskRef := none
  blur_radius? : Option ℚ := none
  feather_radius? : Option ℚ := none
  strength? : Option ℚ := none
  quality? : Option ℤ := none
  exposure? : Option ℚ := none
  contrast? : Option ℚ := none
  saturation? : Option ℚ := none
  temperature_shift? : Option ℚ := none
  shadow_lift? : Option ℚ := none
  highlight_lift? : Option ℚ := none
  micro_contrast? : Option ℚ := none
  local_contrast? : Option ℚ := none
  clarity? : Option ℚ := none
  texture? : Option ℚ := none
  depth? : Option ℚ := none
  sheen? : Option ℚ := none

/-- `_resolve_resize_target`: `(width, height)` for a resize operation. -/
def _resolve_resize_target (operation : Operation)
    (presets : List (String × ℕ × ℕ)) : Except PError (ℕ × ℕ) :=
  match operation.preset? with
  | some preset_name =>
      match List.lookup preset_name presets with
      | none => .error (.invalidParam ("Unknown aspect ratio preset: " ++ preset_name))
      | some size => .ok size
  | none =>
      match operation.width?, operation.height? with
      | some w, some h => .ok (w, h)
      | _, _ => .error (.invalidParam "Resize operation must include a preset or width/height.")

/-- The grading parameter dict built by the `grade` branch of the
executor (`{k: v for k, v in operation.items() if k != "type"}`). -/
def gradingOf (op : Operation) : Grading :=
  ⟨op.exposure?, op.contrast?, op.saturation?, op.temperature_shift?,
   op.shadow_lift?, op.highlight_lift?, op.micro_contrast?, op.local_contrast?⟩

/-- One iteration of `process_variant`'s operation loop (the Python
`if/elif` chain on `operation.get("type")`); a `none` operation models a
manifest entry that is not a mapping. -/
def process_variant_step (E : ExtOps) (fs : FS) (input_path : String)
    (presets : List (String × ℕ × ℕ)) (image : Img) :
    Option Operation → Except PError Img
  | none => .error (.invalidParam "Each operation must be a mapping.")
  | some op =>
      if op.type? = some "resize" then
        match _resolve_resize_target op presets with
        | .error e => .error e
        | .ok size => .ok (resize_image E image size)
      else if op.type? = some "crop" then
        match op.preset? with
        | none => .error (.invalidParam "Crop operation must include a preset key.")
        | some preset => apply_crop_preset image preset op.offset?
      else if op.type? = some "grade" then
        .ok (apply_grading E image (some (gradingOf op)))
      else if op.type? = some "inpaint" then
        match op.mask? with
        | none => .error (.invalidParam "Inpaint operation requires a mask entry.")
        | some mask_ref =>
            match _resolve_mask E fs mask_ref input_path with
            | .error e => .error e
            | .ok mask_image =>
                .ok (inpaint_with_mask E image (.image mask_image)
                      (op.blur_radius?.getD 25) (op.feather_radius?.getD 8)
                      (op.strength?.getD 1))
      else if op.type? = some "material_enhance" ∨ op.type? = some "enhance_materials" then
        .ok (enhance_material_definition E image
              (op.clarity?.getD (6/5))
              ((op.micro_contrast? <|> op.texture?).getD (23/20))
              ((op.depth? <|> op.contrast?).getD (21/20))
              ((op.sheen? <|> op.saturation?).getD (21/20)))
      else .error (.invalidParam "Unsupported operation type")

/-- `process_variant`'s operation loop over the whole list. -/
def process_variant_ops (E : ExtOps) (fs : FS) (input_path : String)
    (presets : List (String × ℕ × ℕ)) :
    Img → List (Option Operation) → Except PError Img
  | image, [] => .ok image
  | image, op :: rest =>
      match process_variant_step E fs input_path presets image op with
      | .error e => .error e
      | .ok image' => process_variant_ops E fs input_path presets image' rest

/-- The quality override taken from the last operation specifying one. -/
def lastQuality (ops : List (Option Operation)) : Option ℤ :=
  ops.reverse.findSome? fun o => o.bind (·.quality?)

/-- `process_variant`: load, apply the operations in order, save; any
exception is caught at the task boundary and turned into `False`, leaving
the file system untouched. -/
def process_variant (E : ExtOps) (fs : FS) (input_path output_path : String)
    (operations : List (Option Operation))
    (presets : List (String × ℕ × ℕ) := ASPECT_RATIO_PRESETS) : Bool × FS :=
  match load_image fs input_path >>= fun image =>
        process_variant_ops E fs input_path presets image operations with
  | .ok image =>
      (true, save_image fs image output_path ((lastQuality operations).getD 95))
  | .error _ => (false, fs)

/-! ## src/main.py -/

/-- One scheduled task from `iterate_tasks`: source path, output path and
the variant's operation list. -/
structure PipelineTask where
  source : String
  output : String
  operations : List (Option Operation)

/-- The task loop of `run_yaml_pipeline`: processed / failed counts and
the resulting file system. -/
def runTasks (E : ExtOps) (presets : List (String × ℕ × ℕ)) :
    FS → List PipelineTask → ℕ × ℕ × FS
  | fs, [] => (0, 0, fs)
  | fs, t :: rest =>
      let r := process_variant E fs t.source t.output t.operations presets
      let acc := runTasks E presets r.2 rest
      if r.1 then (acc.1 + 1, acc.2.1, acc.2.2) else (acc.1, acc.2.1 + 1, acc.2.2)

/-- `run_yaml_pipeline` (after a successfully loaded manifest): run every
task, report the counts, exit 0 iff nothing failed. -/
def run_yaml_pipeline (E : ExtOps) (fs : FS) (tasks : List PipelineTask) :
    ℕ × ℕ × FS × ℤ :=
  let r := runTasks E ASPECT_RATIO_PRESETS fs tasks
  (r.1, r.2.1, r.2.2, if r.2.1 = 0 then 0 else 2)

/-! ## Crop geometry lemmas -/

/-- The crop box `crop_to_aspect` computes: `_crop_box` on the image
dimensions with the normalized (clamped) focal offset. -/
def cropBoxOf (w h : ℕ) (R ox oy : ℚ) : ℤ × ℤ × ℤ × ℤ :=
  _crop_box (w, h) R (_normalize_offset (some (ox, oy)))

/-- Left edge of the computed crop box. -/
def cropLeft (w h : ℕ) (R ox oy : ℚ) : ℤ := (cropBoxOf w h R ox oy).1

/-- Top edge of the computed crop box. -/
def cropTop (w h : ℕ) (R ox oy : ℚ) : ℤ := (cropBoxOf w h R ox oy).2.1

theorem crop_box_degenerate {w h : ℕ} (R : ℚ) (off : ℚ × ℚ)
    (hz : w = 0 ∨ h = 0) :
    _crop_box (w, h) R off = (0, 0, (w : ℤ), (h : ℤ)) := by
  unfold _crop_box
  simp [hz]

theorem crop_box_near (w h : ℕ) (R : ℚ) (off : ℚ × ℚ)
    (hclose : |(w : ℚ) / (h : ℚ) - R| < 1/1000000) :
    _crop_box (w, h) R off = (0, 0, (w : ℤ), (h : ℤ)) := by
  unfold _crop_box
  by_cases hz : w = 0 ∨ h = 0
  · simp [hz]
  · simp only [hz, if_false]
    rw [if_pos hclose]

theorem crop_box_wide (w h : ℕ) (R : ℚ) (off : ℚ × ℚ)
    (hw : w ≠ 0) (hh : h ≠ 0)
    (hclose : ¬ |(w : ℚ) / (h : ℚ) - R| < 1/1000000)
    (hgt : R < (w : ℚ) / (h : ℚ)) :
    _crop_box (w, h) R off =
      (max 0 (min ((w : ℤ) - pyRound ((h : ℚ) * R))
         (pyRound (((((w : ℤ) - pyRound ((h : ℚ) * R)) : ℤ) : ℚ) * ((off.1 + 1) / 2)))),
       0,
       max 0 (min ((w : ℤ) - pyRound ((h : ℚ) * R))
         (pyRound (((((w : ℤ) - pyRound ((h : ℚ) * R)) : ℤ) : ℚ) * ((off.1 + 1) / 2))))
         + pyRound ((h : ℚ) * R),
       (h : ℤ)) := by
  unfold _crop_box
  have hz : ¬ (w = 0 ∨ h = 0) := by simp [hw, hh]
  simp only [hz, if_false]
  rw [if_neg hclose, if_pos hgt]

theorem crop_box_tall (w h : ℕ) (R : ℚ) (off : ℚ × ℚ)
    (hw : w ≠ 0) (hh : h ≠ 0)
    (hclose : ¬ |(w : ℚ) / (h : ℚ) - R| < 1/1000000)
    (hle : ¬ R < (w : ℚ) / (h : ℚ)) :
    _crop_box (w, h) R off =
      (0,
       max 0 (min ((h : ℤ) - pyRound ((w : ℚ) / R))
         (pyRound (((((h : ℤ) - pyRound ((w : ℚ) / R)) : ℤ) : ℚ) * ((off.2 + 1) / 2)))),
       (w : ℤ),
       max 0 (min ((h : ℤ) - pyRound ((w : ℚ) / R))
         (pyRound (((((h : ℤ) - pyRound ((w : ℚ) / R)) : ℤ) : ℚ) * ((off.2 + 1) / 2))))
         + pyRound ((w : ℚ) / R)) := by
  unfold _crop_box
  have hz : ¬ (w = 0 ∨ h = 0) := by simp [hw, hh]
  simp only [hz, if_false]
  rw [if_neg hclose, if_neg hle]

/-! ## Claim C2 -/

/-- Claim C2 (amended): for positive image dimensions, a target aspect
ratio given as a pair of positive integers and an arbitrary focal offset,
the crop box computed by `_crop_box` (as applied by `crop_to_aspect`,
i.e. after offset normalization) always satisfies
`0 ≤ left ≤ right ≤ width` and `0 ≤ top ≤ bottom ≤ height`; it is
moreover non-empty (`left < right` and `top < bottom`) whenever the
rounded target dimensions `round(height·R)` and `round(width/R)` are at
least one pixel. -/
theorem claim_C2_crop_box_bounds (w h rw rh : ℕ) (ox oy : ℚ)
    (hw : 0 < w) (hh : 0 < h) (hrw : 0 < rw) (hrh : 0 < rh) :
    ∀ L T Ri B : ℤ, cropBoxOf w h ((rw : ℚ) / (rh : ℚ)) ox oy = (L, T, Ri, B) →
      (0 ≤ L ∧ L ≤ Ri ∧ Ri ≤ (w : ℤ) ∧ 0 ≤ T ∧ T ≤ B ∧ B ≤ (h : ℤ)) ∧
      (1 ≤ pyRound ((h : ℚ) * ((rw : ℚ) / (rh : ℚ))) →
       1 ≤ pyRound ((w : ℚ) / ((rw : ℚ) / (rh : ℚ))) →
        L < Ri ∧ T < B) := by
  intro L T Ri B heq
  have hwQ : (0 : ℚ) < (w : ℚ) := by exact_mod_cast hw
  have hhQ : (0 : ℚ) < (h : ℚ) := by exact_mod_cast hh
  have hR : (0 : ℚ) < (rw : ℚ) / (rh : ℚ) := by
    apply div_pos <;> exact_mod_cast ‹_›
  have hwZ : (0 : ℤ) < (w : ℤ) := by exact_mod_cast hw
  have hhZ : (0 : ℤ) < (h : ℤ) := by exact_mod_cast hh
  set R : ℚ := (rw : ℚ) / (rh : ℚ) with hRdef
  by_cases hclose : |(w : ℚ) / (h : ℚ) - R| < 1/1000000
  · rw [cropBoxOf, crop_box_near w h R _ hclose, Prod.mk.injEq, Prod.mk.injEq,
      Prod.mk.injEq] at heq
    obtain ⟨h1, h2, h3, h4⟩ := heq
    subst h1; subst h2; subst h3; subst h4
    exact ⟨by omega, fun _ _ => by omega⟩
  · by_cases hgt : R < (w : ℚ) / (h : ℚ)
    · rw [cropBoxOf, crop_box_wide w h R _ (by omega) (by omega) hclose hgt,
        Prod.mk.injEq, Prod.mk.injEq, Prod.mk.injEq] at heq
      obtain ⟨h1, h2, h3, h4⟩ := heq
      subst h1; subst h2; subst h3; subst h4
      have hnw0 : 0 ≤ pyRound ((h : ℚ) * R) :=
        pyRound_nonneg (by positivity)
      have hprod : (h : ℚ) * R < ((w : ℤ) : ℚ) := by
        rw [lt_div_iff₀ hhQ] at hgt
        push_cast
        linarith
      have hnww : pyRound ((h : ℚ) * R) ≤ (w : ℤ) := pyRound_le_of_lt_int hprod
      refine ⟨by omega, fun hs _ => by omega⟩
    · rw [cropBoxOf, crop_box_tall w h R _ (by omega) (by omega) hclose hgt,
        Prod.mk.injEq, Prod.mk.injEq, Prod.mk.injEq] at heq
      obtain ⟨h1, h2, h3, h4⟩ := heq
      subst h1; subst h2; subst h3; subst h4
      have hlt : (w : ℚ) / (h : ℚ) < R := by
        rcases lt_or_eq_of_le (not_lt.mp hgt) with hc | hc
        · exact hc
        · exfalso
          apply hclose
          rw [hc, sub_self]
          norm_num
      have hnh0 : 0 ≤ pyRound ((w : ℚ) / R) :=
        pyRound_nonneg (by positivity)
      have hquot : (w : ℚ) / R < ((h : ℤ) : ℚ) := by
        rw [div_lt_iff₀ hhQ] at hlt
        rw [div_lt_iff₀ hR]
        push_cast
        linarith
      have hnhh : pyRound ((w : ℚ) / R) ≤ (h : ℤ) := pyRound_le_of_lt_int hquot
      refine ⟨by omega, fun _ ht => by omega⟩

/-- Claim C2 counterexample: a 1×1 image with target ratio 1/3 (aspect
pair (1, 3)) and centered offset yields the crop box (0, 0, 0, 1), whose
left edge is not strictly below its right edge. -/
theorem cropBoxOf_1_1_third : cropBoxOf 1 1 ((1 : ℚ) / (3 : ℚ)) 0 0 = (0, 0, 0, 1) := by
  rw [cropBoxOf]
  rw [crop_box_wide 1 1 ((1 : ℚ) / (3 : ℚ)) (_normalize_offset (some (0, 0)))
    (by norm_num) (by norm_num) (by push_cast; rw [abs_sub_lt_iff]; norm_num)
    (by push_cast; norm_num)]
  norm_num [_normalize_offset, _clamp, pyRound]

theorem claim_C2_counterexample :
    ¬ ((cropBoxOf 1 1 ((1 : ℚ) / (3 : ℚ)) 0 0).1
        < (cropBoxOf 1 1 ((1 : ℚ) / (3 : ℚ)) 0 0).2.2.1) := by
  rw [cropBoxOf_1_1_third]
  norm_num

/-- Witness for the amended claim C2 at a concrete input. -/
theorem claim_C2_witness :
    (0 : ℕ) < 30 ∧ (0 : ℕ) < 10 ∧ (0 : ℕ) < 1 ∧
    (0 ≤ (cropBoxOf 30 10 ((1 : ℚ) / (1 : ℚ)) 0 0).1 ∧
      (cropBoxOf 30 10 ((1 : ℚ) / (1 : ℚ)) 0 0).1 < (cropBoxOf 30 10 ((1 : ℚ) / (1 : ℚ)) 0 0).2.2.1) := by
  refine ⟨by norm_num, by norm_num, by norm_num, ?_⟩
  have h := claim_C2_crop_box_bounds 30 10 1 1 0 0 (by norm_num) (by norm_num)
    (by norm_num) (by norm_num)
    (cropBoxOf 30 10 ((1 : ℚ) / (1 : ℚ)) 0 0).1
    (cropBoxOf 30 10 ((1 : ℚ) / (1 : ℚ)) 0 0).2.1
    (cropBoxOf 30 10 ((1 : ℚ) / (1 : ℚ)) 0 0).2.2.1
    (cropBoxOf 30 10 ((1 : ℚ) / (1 : ℚ)) 0 0).2.2.2 rfl
  refine ⟨h.1.1, (h.2 ?_ ?_).1⟩
  · show 1 ≤ pyRound ((10 : ℕ) * ((1 : ℚ) / (1 : ℚ)))
    norm_num [pyRound]
  · show 1 ≤ pyRound ((30 : ℕ) / ((1 : ℚ) / (1 : ℚ)))
    norm_num [pyRound]

/-! ## Claim C4 -/

/-- Claim C4: the legacy enhancement-factor coercion maps every value in
[-1, 1] to 1+v, passes every v > 1 through unchanged, maps every v < -1
to 0, and never produces a negative factor. -/
theorem claim_C4_resolve_enhance_factor (v : ℚ) :
    (-1 ≤ v → v ≤ 1 → _resolve_enhance_factor v = 1 + v) ∧
    (1 < v → _resolve_enhance_factor v = v) ∧
    (v < -1 → _resolve_enhance_factor v = 0) ∧
    0 ≤ _resolve_enhance_factor v := by
  unfold _resolve_enhance_factor
  split_ifs with h1 h2
  · exact ⟨fun _ _ => rfl,
      fun hv => absurd h1.2 (not_le.mpr hv),
      fun hv => absurd h1.1 (not_le.mpr hv),
      by linarith [h1.1]⟩
  · push_neg at h1
    refine ⟨fun ha hb => absurd (h1 ha) (not_lt.mpr hb), ?_, fun _ => rfl, le_refl 0⟩
    intro hv
    linarith
  · push_neg at h1
    refine ⟨fun ha hb => absurd (h1 ha) (not_lt.mpr hb), fun _ => rfl, ?_, by linarith⟩
    intro hv
    linarith

/-- Witness for claim C4 at concrete inputs: 0.2 becomes 1.2, -1 becomes
0, 1 becomes 2, values above 1 pass through, values below -1 become 0. -/
theorem claim_C4_witness :
    _resolve_enhance_factor (1/5) = 6/5 ∧ _resolve_enhance_factor (-1) = 0 ∧
    _resolve_enhance_factor 1 = 2 ∧ _resolve_enhance_factor 3 = 3 ∧
    _resolve_enhance_factor (-2) = 0 :=
  ⟨((claim_C4_resolve_enhance_factor (1/5)).1 (by norm_num) (by norm_num)).trans
      (by norm_num),
   ((claim_C4_resolve_enhance_factor (-1)).1 (by norm_num) (by norm_num)).trans
      (by norm_num),
   ((claim_C4_resolve_enhance_factor 1).1 (by norm_num) (by norm_num)).trans
      (by norm_num),
   (claim_C4_resolve_enhance_factor 3).2.1 (by norm_num),
   (claim_C4_resolve_enhance_factor (-2)).2.2.1 (by norm_num)⟩

/-! ## Claim C6 -/

/-- Claim C6: when the current width/height ratio differs from the target
ratio by less than 1e-6, the crop box is the full image and
`crop_to_aspect` returns a buffer with the input's pixel content. -/
theorem claim_C6_near_ratio_noop (image : Img) (a1 a2 : ℕ)
    (offset : Option (ℚ × ℚ)) (fresh : ℕ)
    (hclose : |(image.w : ℚ) / (image.h : ℚ) - (a1 : ℚ) / (a2 : ℚ)| < 1/1000000) :
    _crop_box (image.w, image.h) ((a1 : ℚ) / (a2 : ℚ)) (_normalize_offset offset)
      = (0, 0, (image.w : ℤ), (image.h : ℤ)) ∧
    ImgEq (crop_to_aspect image (a1, a2) offset fresh) image := by
  have hbox := crop_box_near image.w image.h ((a1 : ℚ) / (a2 : ℚ))
    (_normalize_offset offset) hclose
  refine ⟨hbox, ?_⟩
  unfold crop_to_aspect
  show ImgEq
    (image.crop (_crop_box (image.w, image.h) ((a1 : ℚ) / (a2 : ℚ))
      (_normalize_offset offset)) fresh) image
  rw [hbox]
  unfold Img.crop ImgEq
  refine ⟨rfl, by simp, by simp, ?_⟩
  intro x hx y hy c hc
  simp at hx hy
  have hcond : (0 : ℤ) ≤ (x : ℤ) + 0 ∧ (x : ℤ) + 0 < (image.w : ℤ) ∧
      (0 : ℤ) ≤ (y : ℤ) + 0 ∧ (y : ℤ) + 0 < (image.h : ℤ) := by
    omega
  simp [hcond, hx, hy]

/-- A concrete 2×1 RGB test image. -/
def imgC6 : Img := ⟨3, 2, 1, PMode.RGB, fun _ _ => ⟨5, 6, 7, 0⟩⟩

/-- Witness for claim C6: a 2×1 image cropped to aspect (2, 1) keeps its
content. -/
theorem claim_C6_witness :
    |(imgC6.w : ℚ) / (imgC6.h : ℚ) - (2 : ℚ) / (1 : ℚ)| < 1/1000000 ∧
    ImgEq (crop_to_aspect imgC6 (2, 1) none 9) imgC6 := by
  have hclose : |(imgC6.w : ℚ) / (imgC6.h : ℚ) - (2 : ℚ) / (1 : ℚ)| < 1/1000000 := by
    norm_num [imgC6]
  exact ⟨hclose, (claim_C6_near_ratio_noop imgC6 2 1 none 9 hclose).2⟩

/-! ## Claim C7 -/

theorem cropLeft_wide (w h : ℕ) (R ox oy : ℚ) (hw : w ≠ 0) (hh : h ≠ 0)
    (hclose : ¬ |(w : ℚ) / (h : ℚ) - R| < 1/1000000)
    (hgt : R < (w : ℚ) / (h : ℚ)) :
    cropLeft w h R ox oy =
      max 0 (min ((w : ℤ) - pyRound ((h : ℚ) * R))
        (pyRound (((((w : ℤ) - pyRound ((h : ℚ) * R)) : ℤ) : ℚ)
          * ((_clamp ox (-1) 1 + 1) / 2)))) := by
  unfold cropLeft cropBoxOf
  rw [crop_box_wide w h R _ hw hh hclose hgt]
  simp [_normalize_offset]

theorem cropTop_tall (w h : ℕ) (R ox oy : ℚ) (hw : w ≠ 0) (hh : h ≠ 0)
    (hclose : ¬ |(w : ℚ) / (h : ℚ) - R| < 1/1000000)
    (hle : ¬ R < (w : ℚ) / (h : ℚ)) :
    cropTop w h R ox oy =
      max 0 (min ((h : ℤ) - pyRound ((w : ℚ) / R))
        (pyRound (((((h : ℤ) - pyRound ((w : ℚ) / R)) : ℤ) : ℚ)
          * ((_clamp oy (-1) 1 + 1) / 2)))) := by
  unfold cropTop cropBoxOf
  rw [crop_box_tall w h R _ hw hh hclose hle]
  simp [_normalize_offset]

theorem clamp_unit_mono {o1 o2 : ℚ} (h : o1 ≤ o2) :
    _clamp o1 (-1) 1 ≤ _clamp o2 (-1) 1 := by
  unfold _clamp
  exact max_le_max (le_refl _) (min_le_min (le_refl _) h)

theorem clamp_unit_low {o : ℚ} (h : o ≤ -1) : _clamp o (-1) 1 = -1 := by
  unfold _clamp
  rw [min_eq_right (le_trans h (by norm_num)), max_eq_left h]

theorem clamp_unit_high {o : ℚ} (h : 1 ≤ o) : _clamp o (-1) 1 = 1 := by
  unfold _clamp
  rw [min_eq_left h]
  norm_num

/-- Claim C7: on an image wider than the target ratio, the crop box's
left edge is monotonically non-decreasing in the horizontal focal offset,
is 0 for offsets ≤ -1 and `width - new_width` for offsets ≥ +1
(out-of-range offsets being clamped, not rejected); symmetrically for the
top edge when the image is taller than the target ratio. -/
theorem claim_C7_offset_monotone (w h : ℕ) (R : ℚ)
    (hw : 0 < w) (hh : 0 < h) (hR : 0 < R) :
    ((w : ℚ) / (h : ℚ) - R ≥ 1/1000000 →
      (∀ oy o1 o2 : ℚ, o1 ≤ o2 → cropLeft w h R o1 oy ≤ cropLeft w h R o2 oy) ∧
      (∀ ox oy : ℚ, ox ≤ -1 → cropLeft w h R ox oy = 0) ∧
      (∀ ox oy : ℚ, 1 ≤ ox → cropLeft w h R ox oy = (w : ℤ) - pyRound ((h : ℚ) * R))) ∧
    (R - (w : ℚ) / (h : ℚ) ≥ 1/1000000 →
      (∀ ox o1 o2 : ℚ, o1 ≤ o2 → cropTop w h R ox o1 ≤ cropTop w h R ox o2) ∧
      (∀ ox oy : ℚ, oy ≤ -1 → cropTop w h R ox oy = 0) ∧
      (∀ ox oy : ℚ, 1 ≤ oy → cropTop w h R ox oy = (h : ℤ) - pyRound ((w : ℚ) / R))) := by
  have hhQ : (0 : ℚ) < (h : ℚ) := by exact_mod_cast hh
  constructor
  · intro hwide
    have hclose : ¬ |(w : ℚ) / (h : ℚ) - R| < 1/1000000 := by
      rw [abs_sub_lt_iff]
      intro hcon
      linarith [hcon.1]
    have hgt : R < (w : ℚ) / (h : ℚ) := by linarith
    have hnw0 : 0 ≤ pyRound ((h : ℚ) * R) := pyRound_nonneg (by positivity)
    have hprod : (h : ℚ) * R < ((w : ℤ) : ℚ) := by
      rw [lt_div_iff₀ hhQ] at hgt
      push_cast
      linarith
    have hnww : pyRound ((h : ℚ) * R) ≤ (w : ℤ) := pyRound_le_of_lt_int hprod
    have hA : (0 : ℤ) ≤ (w : ℤ) - pyRound ((h : ℚ) * R) := by omega
    have hAq : (0 : ℚ) ≤ ((((w : ℤ) - pyRound ((h : ℚ) * R)) : ℤ) : ℚ) := by
      exact_mod_cast hA
    refine ⟨?_, ?_, ?_⟩
    · intro oy o1 o2 h12
      rw [cropLeft_wide w h R o1 oy (by omega) (by omega) hclose hgt,
        cropLeft_wide w h R o2 oy (by omega) (by omega) hclose hgt]
      have hc := clamp_unit_mono h12
      have hm : pyRound (((((w : ℤ) - pyRound ((h : ℚ) * R)) : ℤ) : ℚ)
            * ((_clamp o1 (-1) 1 + 1) / 2)) ≤
          pyRound (((((w : ℤ) - pyRound ((h : ℚ) * R)) : ℤ) : ℚ)
            * ((_clamp o2 (-1) 1 + 1) / 2)) := by
        apply pyRound_mono
        apply mul_le_mul_of_nonneg_left _ hAq
        linarith
      omega
    · intro ox oy hox
      rw [cropLeft_wide w h R ox oy (by omega) (by omega) hclose hgt,
        clamp_unit_low hox]
      norm_num [pyRound_zero]
    · intro ox oy hox
      rw [cropLeft_wide w h R ox oy (by omega) (by omega) hclose hgt,
        clamp_unit_high hox, show ((1 : ℚ) + 1) / 2 = 1 by norm_num, mul_one,
        pyRound_intCast]
      omega
  · intro htall
    have hclose : ¬ |(w : ℚ) / (h : ℚ) - R| < 1/1000000 := by
      rw [abs_sub_lt_iff]
      intro hcon
      linarith [hcon.2]
    have hlt : (w : ℚ) / (h : ℚ) < R := by linarith
    have hle : ¬ R < (w : ℚ) / (h : ℚ) := by linarith
    have hnh0 : 0 ≤ pyRound ((w : ℚ) / R) := pyRound_nonneg (by positivity)
    have hquot : (w : ℚ) / R < ((h : ℤ) : ℚ) := by
      rw [div_lt_iff₀ hhQ] at hlt
      rw [div_lt_iff₀ hR]
      push_cast
      linarith
    have hnhh : pyRound ((w : ℚ) / R) ≤ (h : ℤ) := pyRound_le_of_lt_int hquot
    have hA : (0 : ℤ) ≤ (h : ℤ) - pyRound ((w : ℚ) / R) := by omega
    have hAq : (0 : ℚ) ≤ ((((h : ℤ) - pyRound ((w : ℚ) / R)) : ℤ) : ℚ) := by
      exact_mod_cast hA
    refine ⟨?_, ?_, ?_⟩
    · intro ox o1 o2 h12
      rw [cropTop_tall w h R ox o1 (by omega) (by omega) hclose hle,
        cropTop_tall w h R ox o2 (by omega) (by omega) hclose hle]
      have hc := clamp_unit_mono h12
      have hm : pyRound (((((h : ℤ) - pyRound ((w : ℚ) / R)) : ℤ) : ℚ)
            * ((_clamp o1 (-1) 1 + 1) / 2)) ≤
          pyRound (((((h : ℤ) - pyRound ((w : ℚ) / R)) : ℤ) : ℚ)
            * ((_clamp o2 (-1) 1 + 1) / 2)) := by
        apply pyRound_mono
        apply mul_le_mul_of_nonneg_left _ hAq
        linarith
      omega
    · intro ox oy hoy
      rw [cropTop_tall w h R ox oy (by omega) (by omega) hclose hle,
        clamp_unit_low hoy]
      norm_num [pyRound_zero]
    · intro ox oy hoy
      rw [cropTop_tall w h R ox oy (by omega) (by omega) hclose hle,
        clamp_unit_high hoy, show ((1 : ℚ) + 1) / 2 = 1 by norm_num, mul_one,
        pyRound_intCast]
      omega

/-- Witness for claim C7 on a 30×10 image with target ratio 1: clamped
endpoints and monotonicity at concrete offsets. -/
theorem claim_C7_witness :
    (30 : ℚ) / (10 : ℚ) - 1 ≥ 1/1000000 ∧
    cropLeft 30 10 1 (-2) 0 = 0 ∧
    cropLeft 30 10 1 2 0 = (30 : ℤ) - pyRound ((10 : ℚ) * 1) ∧
    cropLeft 30 10 1 0 0 ≤ cropLeft 30 10 1 (1/2) 0 := by
  have h := (claim_C7_offset_monotone 30 10 1 (by norm_num) (by norm_num)
    (by norm_num)).1 (by push_cast; norm_num)
  exact ⟨by norm_num, h.2.1 (-2) 0 (by norm_num), h.2.2 2 0 (by norm_num),
    h.1 0 0 (1/2) (by norm_num)⟩

/-! ## Claim C3 -/

/-- Claim C3: `resize_image` always returns a buffer whose dimensions
equal the requested target (for any behavior of the external
`ImageOps.contain`), and when the source already matches the target it
returns a defensive copy: a distinct freshly-allocated buffer with
identical pixel content. -/
theorem claim_C3_resize_exact (E : ExtOps) (image : Img) (tw th fresh : ℕ)
    (_htw : 0 < tw) (_hth : 0 < th) :
    ((resize_image E image (tw, th) fresh).w = tw ∧
     (resize_image E image (tw, th) fresh).h = th) ∧
    (image.w = tw → image.h = th →
      resize_image E image (tw, th) fresh = image.copy fresh ∧
      ImgEq (resize_image E image (tw, th) fresh) image ∧
      (fresh ≠ image.id → (resize_image E image (tw, th) fresh).id ≠ image.id)) := by
  unfold resize_image
  split_ifs with h1
  · rw [Prod.mk.injEq] at h1
    refine ⟨⟨h1.1, h1.2⟩, fun _ _ => ⟨rfl, ?_, fun hne => hne⟩⟩
    unfold ImgEq Img.copy
    exact ⟨rfl, rfl, rfl, fun x _ y _ c _ => rfl⟩
  · dsimp only
    split_ifs with h2 h3
    · rw [Prod.mk.injEq] at h2
      refine ⟨⟨h2.1, h2.2⟩, fun hiw hih => absurd ?_ h1⟩
      rw [hiw, hih]
    · refine ⟨⟨rfl, rfl⟩, fun hiw hih => absurd ?_ h1⟩
      rw [hiw, hih]
    · refine ⟨⟨rfl, rfl⟩, fun hiw hih => absurd ?_ h1⟩
      rw [hiw, hih]

/-- A trivial instantiation of the external Pillow/OS primitives, used to
evaluate parametric theorems at concrete inputs. -/
def extOpsId : ExtOps where
  contain := fun i _ => i
  gaussianBlur := fun _ i => i
  unsharpMask := fun _ _ _ i => i
  sharpness := fun i _ => i
  brightness := fun i _ => i
  contrastEnh := fun i _ => i
  colorEnh := fun i _ => i
  joinPath := fun a b => a ++ "/" ++ b

/-- Witness for claim C3: resizing the 2×1 test image to (2, 1) keeps the
dimensions, copies the content and allocates a distinct buffer. -/
theorem claim_C3_witness :
    (0 : ℕ) < 2 ∧ (0 : ℕ) < 1 ∧
    (resize_image extOpsId imgC6 (2, 1) 99).w = 2 ∧
    (resize_image extOpsId imgC6 (2, 1) 99).h = 1 ∧
    ImgEq (resize_image extOpsId imgC6 (2, 1) 99) imgC6 ∧
    (resize_image extOpsId imgC6 (2, 1) 99).id ≠ imgC6.id := by
  have h := claim_C3_resize_exact extOpsId imgC6 2 1 99 (by norm_num) (by norm_num)
  have h2 := h.2 rfl rfl
  exact ⟨by norm_num, by norm_num, h.1.1, h.1.2, h2.2.1,
    h2.2.2 (by show (99 : ℕ) ≠ 3; norm_num)⟩

/-! ## Claim C5 -/

/-- The exposure step of a grade operation, as the spec orders it. -/
def gradeStageExposure (E : ExtOps) (g : Grading) (img : Img) : Img :=
  match g.exposure with
  | none => img
  | some e => E.brightness img (1 + e)

/-- The contrast step of a grade operation. -/
def gradeStageContrast (E : ExtOps) (g : Grading) (img : Img) : Img :=
  match g.contrast with
  | none => img
  | some c => E.contrastEnh img (_resolve_enhance_factor c)

/-- The saturation step of a grade operation. -/
def gradeStageSaturation (E : ExtOps) (g : Grading) (img : Img) : Img :=
  match g.saturation with
  | none => img
  | some s => E.colorEnh img (_resolve_enhance_factor s)

/-- The temperature-shift step of a grade operation. -/
def gradeStageTemperature (g : Grading) (fresh : ℕ) (img : Img) : Img :=
  match g.temperature_shift with
  | none => img
  | some t => if t = 0 then img else apply_temperature_shift img t fresh

/-- The shadow-lift step of a grade operation. -/
def gradeStageShadow (g : Grading) (fresh : ℕ) (img : Img) : Img :=
  match g.shadow_lift with
  | none => img
  | some s => if s = 0 then img else apply_shadow_lift img s fresh

/-- The highlight-lift step of a grade operation. -/
def gradeStageHighlight (g : Grading) (fresh : ℕ) (img : Img) : Img :=
  match g.highlight_lift with
  | none => img
  | some hl => if hl = 0 then img else apply_highlight_lift img hl fresh

/-- The micro/local-contrast step of a grade operation (micro_contrast
taking precedence over local_contrast). -/
def gradeStageMicro (E : ExtOps) (g : Grading) (fresh : ℕ) (img : Img) : Img :=
  match (match g.micro_contrast with
         | some v => some v
         | none => g.local_contrast) with
  | none => img
  | some v => apply_local_contrast E img (some v) 2 fresh

/-- Claim C5: a grade operation carrying several parameters applies the
grading primitives in exactly the fixed sequence exposure → contrast →
saturation → temperature shift → shadow lift → highlight lift →
micro/local contrast, starting from a working copy of the buffer. -/
theorem claim_C5_grading_order (E : ExtOps) (image : Img) (g : Grading) (fresh : ℕ) :
    apply_grading E image (some g) fresh =
      gradeStageMicro E g fresh
        (gradeStageHighlight g fresh
          (gradeStageShadow g fresh
            (gradeStageTemperature g fresh
              (gradeStageSaturation E g
                (gradeStageContrast E g
                  (gradeStageExposure E g (image.copy fresh))))))) := rfl

/-! ## Claim C10 -/

theorem toU8_natCast (v : ℕ) : toU8 (v : ℚ) = v := by
  unfold toU8
  rw [Int.floor_natCast]
  exact Int.toNat_natCast v

theorem npClip_eq_self {v : ℚ} (h0 : 0 ≤ v) (h255 : v ≤ 255) :
    npClip v 0 255 = v := by
  unfold npClip
  rw [max_eq_right h0, min_eq_right h255]

theorem l24_diag (v : ℕ) : l24 v v v = v := by
  unfold l24
  omega

theorem inpaint_identity_channel (vb : ℕ) (h : vb ≤ 255) :
    toU8 (npClip ((vb : ℚ) * (1 - 0) + 0) 0 255) = vb := by
  rw [show ((vb : ℚ) * (1 - 0) + 0 : ℚ) = (vb : ℚ) by ring]
  rw [npClip_eq_self (by positivity) (by exact_mod_cast h)]
  exact toU8_natCast vb

/-- Claim C10: `inpaint_with_mask` with strength 0 returns a distinct,
freshly allocated buffer whose pixel content (alpha included when
present) equals the input's, for every mask and radii. -/
theorem claim_C10_inpaint_strength_zero (E : ExtOps) (image : Img)
    (mask : MaskArg) (br fr : ℚ) (fresh : ℕ) (hv : image.Valid) :
    ImgEq (inpaint_with_mask E image mask br fr 0 fresh) image ∧
    (inpaint_with_mask E image mask br fr 0 fresh).id = fresh ∧
    (fresh ≠ image.id → (inpaint_with_mask E image mask br fr 0 fresh).id ≠ image.id) := by
  have hs : max (0 : ℚ) (min 1 0) = 0 := by norm_num
  unfold Img.Valid at hv
  cases hmode : image.mode with
  | RGB =>
      refine ⟨⟨?_, ?_, ?_, ?_⟩, ?_, ?_⟩ <;>
        simp only [inpaint_with_mask, _split_alpha, _ensure_rgb, _recombine_alpha,
          hmode, hs, mul_zero]
      · intro x hx y hy c hc
        simp only [numChannels] at hc
        have hval : ∀ ch < 3, chanVal (image.px x y) ch ≤ 255 := by
          intro ch hch
          exact hv x hx y hy ch (by rw [hmode]; simpa [numChannels] using hch)
        interval_cases c
        · exact inpaint_identity_channel _ (hval 0 (by norm_num))
        · exact inpaint_identity_channel _ (hval 1 (by norm_num))
        · exact inpaint_identity_channel _ (hval 2 (by norm_num))
      · intro hne
        exact hne
  | RGBA =>
      refine ⟨⟨?_, ?_, ?_, ?_⟩, ?_, ?_⟩ <;>
        simp only [inpaint_with_mask, _split_alpha, _ensure_rgb, _recombine_alpha,
          convertMode, hmode, hs, mul_zero]
      · intro x hx y hy c hc
        simp only [numChannels] at hc
        have hval : ∀ ch < 4, chanVal (image.px x y) ch ≤ 255 := by
          intro ch hch
          exact hv x hx y hy ch (by rw [hmode]; simpa [numChannels] using hch)
        interval_cases c
        · exact inpaint_identity_channel _ (hval 0 (by norm_num))
        · exact inpaint_identity_channel _ (hval 1 (by norm_num))
        · exact inpaint_identity_channel _ (hval 2 (by norm_num))
        · rfl
      · intro hne
        exact hne
  | L =>
      refine ⟨⟨?_, ?_, ?_, ?_⟩, ?_, ?_⟩ <;>
        simp only [inpaint_with_mask, _split_alpha, _ensure_rgb, _recombine_alpha,
          convertMode, hmode, hs, mul_zero]
      · intro x hx y hy c hc
        simp only [numChannels] at hc
        have hval : chanVal (image.px x y) 0 ≤ 255 :=
          hv x hx y hy 0 (by rw [hmode]; simp [numChannels])
        interval_cases c
        have hval2 : (image.px x y).r ≤ 255 := hval
        show l24 (toU8 _) (toU8 _) (toU8 _) = (image.px x y).r
        rw [inpaint_identity_channel _ hval2]
        exact l24_diag _
      · intro hne
        exact hne

/-- Witness for claim C10 on the concrete 2×1 image with an array mask. -/
theorem claim_C10_witness :
    imgC6.Valid ∧
    ImgEq (inpaint_with_mask extOpsId imgC6 (MaskArg.array 2 1 fun _ _ => 10)
      25 8 0 42) imgC6 ∧
    (inpaint_with_mask extOpsId imgC6 (MaskArg.array 2 1 fun _ _ => 10)
      25 8 0 42).id ≠ imgC6.id := by
  have hv : imgC6.Valid := by
    intro x _ y _ c hc
    rw [show imgC6.mode = PMode.RGB from rfl] at hc
    simp only [numChannels] at hc
    interval_cases c <;> simp [imgC6, chanVal]
  have h := claim_C10_inpaint_strength_zero extOpsId imgC6
    (MaskArg.array 2 1 fun _ _ => 10) 25 8 42 hv
  exact ⟨hv, h.1, h.2.2 (by show (42 : ℕ) ≠ 3; norm_num)⟩

/-! ## Claim C9 -/

/-- Mask-argument normalization shared by the code and the spec model:
a PIL mask is converted to L, a NumPy array is cast to uint8. -/
def maskToL (mask : MaskArg) : Img :=
  match mask with
  | .image m => convertMode m .L
  | .array w h data => ⟨0, w, h, .L, fun x y => ⟨data x y % 256, 0, 0, 0⟩⟩

/-- Spec model (§4.3): feather the mask by blurring it with
`feather_radius` when positive. -/
def specFeatherMask (E : ExtOps) (feather_radius : ℚ) (mask : Img) : Img :=
  if 0 < feather_radius then E.gaussianBlur feather_radius mask else mask

/-- Spec model (§4.3): the infill plate is the source blurred with
`blur_radius`. -/
def specInfillPlate (E : ExtOps) (blur_radius : ℚ) (base : Img) : Img :=
  E.gaussianBlur blur_radius base

/-- Spec model (§4.3): the full inpainting pipeline exactly as the spec
words it — feather the mask, normalize to [0,1] and scale by the clamped
strength, blur an infill plate, and composite
`base × (1 − mask) + infill × mask`, clamped to the valid range. -/
def inpaint_spec (E : ExtOps) (image : Img) (mask : MaskArg)
    (blur_radius feather_radius strength : ℚ) (fresh : ℕ) : Img :=
  let sp := _split_alpha image
  let base := sp.1
  let feathered := specFeatherMask E feather_radius (maskToL mask)
  let m : ℕ → ℕ → ℚ := fun x y =>
    max 0 (min 1 strength) * (((feathered.px x y).r : ℚ) / 255)
  let infill := specInfillPlate E blur_radius base
  let filled : Img :=
    { base with
      id := fresh
      px := fun x y =>
        let f : ℕ → ℕ → ℕ := fun vb vi =>
          toU8 (npClip ((vb : ℚ) * (1 - m x y) + (vi : ℚ) * m x y) 0 255)
        ⟨f (base.px x y).r (infill.px x y).r,
         f (base.px x y).g (infill.px x y).g,
         f (base.px x y).b (infill.px x y).b, 0⟩ }
  _recombine_alpha filled sp.2 image.mode

/-- Claim C9: for a non-negative blur radius, `inpaint_with_mask`
computes exactly the spec's pipeline `inpaint_spec`. -/
theorem claim_C9_inpaint_refines_spec (E : ExtOps) (image : Img)
    (mask : MaskArg) (blur_radius feather_radius strength : ℚ) (fresh : ℕ)
    (hbr : 0 ≤ blur_radius) :
    inpaint_with_mask E image mask blur_radius feather_radius strength fresh =
      inpaint_spec E image mask blur_radius feather_radius strength fresh := by
  unfold inpaint_with_mask inpaint_spec specFeatherMask specInfillPlate maskToL
  rw [max_eq_right hbr]
  dsimp only
  refine congrArg (fun F => _recombine_alpha F (_split_alpha image).2 image.mode) ?_
  congr 1
  funext x y
  dsimp only
  simp only [Px.mk.injEq]
  refine ⟨?_, ?_, ?_, trivial⟩ <;> (congr 1; congr 1; ring)

/-- Witness for claim C9 at a concrete image, mask and parameters. -/
theorem claim_C9_witness :
    (0 : ℚ) ≤ 25 ∧
    inpaint_with_mask extOpsId imgC6 (MaskArg.array 2 1 fun _ _ => 128)
        25 8 (1/2) 7 =
      inpaint_spec extOpsId imgC6 (MaskArg.array 2 1 fun _ _ => 128)
        25 8 (1/2) 7 :=
  ⟨by norm_num,
   claim_C9_inpaint_refines_spec extOpsId imgC6
     (MaskArg.array 2 1 fun _ _ => 128) 25 8 (1/2) 7 (by norm_num)⟩

/-! ## Claim C8 -/

/-- The RGB working base of an image (what `_split_alpha` hands to the
grading primitives). -/
def rgbBase (img : Img) : Img := (_split_alpha img).1

/-- Number of channel samples of the RGB base lying at or below mid-gray
(8-bit value ≤ 127, i.e. normalized value < 0.5). -/
def belowCount (img : Img) : ℕ :=
  ∑ x ∈ Finset.range img.w, ∑ y ∈ Finset.range img.h, ∑ c ∈ Finset.range 3,
    if chanVal ((rgbBase img).px x y) c ≤ 127 then 1 else 0

/-- Sum of `out`'s channel samples over the positions whose `ref` value
is below mid-gray. -/
def belowSumOn (ref out : Img) : ℕ :=
  ∑ x ∈ Finset.range ref.w, ∑ y ∈ Finset.range ref.h, ∑ c ∈ Finset.range 3,
    if chanVal ((rgbBase ref).px x y) c ≤ 127 then chanVal ((rgbBase out).px x y) c
    else 0

/-- Mean of `out`'s channel samples over `ref`'s below-mid-gray positions. -/
def belowMeanOn (ref out : Img) : ℚ :=
  (belowSumOn ref out : ℚ) / (belowCount ref : ℚ)

/-- Number of channel samples of the RGB base above mid-gray. -/
def aboveCount (img : Img) : ℕ :=
  ∑ x ∈ Finset.range img.w, ∑ y ∈ Finset.range img.h, ∑ c ∈ Finset.range 3,
    if 128 ≤ chanVal ((rgbBase img).px x y) c then 1 else 0

/-- Sum of `out`'s channel samples over `ref`'s above-mid-gray positions. -/
def aboveSumOn (ref out : Img) : ℕ :=
  ∑ x ∈ Finset.range ref.w, ∑ y ∈ Finset.range ref.h, ∑ c ∈ Finset.range 3,
    if 128 ≤ chanVal ((rgbBase ref).px x y) c then chanVal ((rgbBase out).px x y) c
    else 0

/-- Mean of `out`'s channel samples over `ref`'s above-mid-gray positions. -/
def aboveMeanOn (ref out : Img) : ℚ :=
  (aboveSumOn ref out : ℚ) / (aboveCount ref : ℚ)

/-- Total quantized lift received by the below-mid-gray samples. -/
def boostSum (img : Img) (a : ℚ) : ℕ :=
  ∑ x ∈ Finset.range img.w, ∑ y ∈ Finset.range img.h, ∑ c ∈ Finset.range 3,
    if chanVal ((rgbBase img).px x y) c ≤ 127 then
      (⌊a * (255 - 2 * (chanVal ((rgbBase img).px x y) c : ℚ))⌋).toNat
    else 0

theorem shadow_lift_below {a : ℚ} (h0 : 0 ≤ a) (h1 : a ≤ 1) {v : ℕ}
    (hv : v ≤ 127) :
    shadow_lift_val a v = v + (⌊a * (255 - 2 * (v : ℚ))⌋).toNat := by
  unfold shadow_lift_val
  dsimp only
  have hvQ : (v : ℚ) ≤ 127 := by exact_mod_cast hv
  have hq0 : (0 : ℚ) ≤ (v : ℚ) / 255 := by positivity
  have h2q : (v : ℚ) / 255 / (1/2) = 2 * (v : ℚ) / 255 := by ring
  have h2le : 2 * (v : ℚ) / 255 ≤ 1 := by
    rw [div_le_one (by norm_num : (0:ℚ) < 255)]
    linarith
  have hmask : npClip ((v : ℚ) / 255 / (1/2)) 0 1 = 2 * (v : ℚ) / 255 := by
    rw [h2q]
    unfold npClip
    rw [max_eq_right (by positivity), min_eq_right h2le]
  rw [hmask]
  have hw : 0 ≤ 1 - 2 * (v : ℚ) / 255 := by linarith
  have hup : (v : ℚ) / 255 + a * (1 - 2 * (v : ℚ) / 255) ≤ 1 := by
    have hstep : a * (1 - 2 * (v : ℚ) / 255) ≤ 1 - 2 * (v : ℚ) / 255 := by
      nlinarith
    have hq255 : (v : ℚ) / 255 ≤ 1 := by
      rw [div_le_one (by norm_num : (0:ℚ) < 255)]
      linarith
    nlinarith [hq0]
  have hinner : npClip ((v : ℚ) / 255 + a * (1 - 2 * (v : ℚ) / 255)) 0 1
      = (v : ℚ) / 255 + a * (1 - 2 * (v : ℚ) / 255) := by
    unfold npClip
    rw [max_eq_right (by positivity), min_eq_right hup]
  rw [hinner]
  have hexp : ((v : ℚ) / 255 + a * (1 - 2 * (v : ℚ) / 255)) * 255
      = ((v : ℤ) : ℚ) + a * (255 - 2 * (v : ℚ)) := by
    push_cast
    ring
  unfold toU8
  rw [hexp, Int.floor_int_add]
  have hfl : 0 ≤ ⌊a * (255 - 2 * (v : ℚ))⌋ := by
    apply Int.floor_nonneg.mpr
    apply mul_nonneg h0
    linarith
  omega

theorem shadow_lift_above (a : ℚ) {v : ℕ}
    (hlo : 128 ≤ v) (hhi : v ≤ 255) :
    shadow_lift_val a v = v := by
  unfold shadow_lift_val
  dsimp only
  have hloQ : (128 : ℚ) ≤ (v : ℚ) := by exact_mod_cast hlo
  have hhiQ : (v : ℚ) ≤ 255 := by exact_mod_cast hhi
  have h2q : (v : ℚ) / 255 / (1/2) = 2 * (v : ℚ) / 255 := by ring
  have hmask : npClip ((v : ℚ) / 255 / (1/2)) 0 1 = 1 := by
    rw [h2q]
    unfold npClip
    rw [max_eq_right (by positivity), min_eq_left (by
      rw [le_div_iff₀ (by norm_num : (0:ℚ) < 255)]
      linarith)]
  rw [hmask]
  have hq255 : (v : ℚ) / 255 ≤ 1 := by
    rw [div_le_one (by norm_num : (0:ℚ) < 255)]
    linarith
  have hinner : npClip ((v : ℚ) / 255 + a * (1 - 1)) 0 1 = (v : ℚ) / 255 := by
    rw [show (1 : ℚ) - 1 = 0 by ring, mul_zero, add_zero]
    unfold npClip
    rw [max_eq_right (by positivity), min_eq_right hq255]
  rw [hinner]
  unfold toU8
  rw [div_mul_cancel₀ _ (by norm_num : (255:ℚ) ≠ 0), Int.floor_natCast]
  exact Int.toNat_natCast v

theorem valid_rgbBase (image : Img) (hv : image.Valid) :
    ∀ x < image.w, ∀ y < image.h, ∀ c < 3,
      chanVal ((rgbBase image).px x y) c ≤ 255 := by
  intro x hx y hy c hc
  unfold Img.Valid at hv
  cases hmode : image.mode with
  | RGB =>
      simp only [rgbBase, _split_alpha, _ensure_rgb, hmode]
      exact hv x hx y hy c (by rw [hmode]; simpa [numChannels] using hc)
  | RGBA =>
      simp only [rgbBase, _split_alpha, convertMode, hmode]
      interval_cases c
      · exact hv x hx y hy 0 (by rw [hmode]; simp [numChannels])
      · exact hv x hx y hy 1 (by rw [hmode]; simp [numChannels])
      · exact hv x hx y hy 2 (by rw [hmode]; simp [numChannels])
  | L =>
      simp only [rgbBase, _split_alpha, _ensure_rgb, convertMode, hmode]
      interval_cases c
      · exact hv x hx y hy 0 (by rw [hmode]; simp [numChannels])
      · exact hv x hx y hy 0 (by rw [hmode]; simp [numChannels])
      · exact hv x hx y hy 0 (by rw [hmode]; simp [numChannels])

theorem rgbBase_shadow_lift (image : Img) (a : ℚ) (fresh : ℕ)
    (h0 : 0 < a) (h1 : a ≤ 1) (x y : ℕ) :
    ∀ c < 3, chanVal ((rgbBase (apply_shadow_lift image a fresh)).px x y) c =
      shadow_lift_val a (chanVal ((rgbBase image).px x y) c) := by
  intro c hc
  have hne : ¬ a = 0 := ne_of_gt h0
  have hamt : max 0 (min 1 a) = a := by
    rw [min_eq_right h1, max_eq_right (le_of_lt h0)]
  cases hmode : image.mode with
  | RGB =>
      simp only [apply_shadow_lift, rgbBase, _split_alpha, _ensure_rgb,
        _recombine_alpha, hmode, if_neg hne, hamt]
      interval_cases c <;> rfl
  | RGBA =>
      simp only [apply_shadow_lift, rgbBase, _split_alpha, _ensure_rgb,
        _recombine_alpha, convertMode, hmode, if_neg hne, hamt]
      interval_cases c <;> rfl
  | L =>
      simp only [apply_shadow_lift, rgbBase, _split_alpha, _ensure_rgb,
        _recombine_alpha, convertMode, hmode, if_neg hne, hamt]
      interval_cases c <;> (show l24 _ _ _ = _; rw [l24_diag]) <;> rfl

/-- Claim C8 (amended): for a valid 8-bit image and 0 < amount ≤ 1,
`apply_shadow_lift` leaves the above-mid-gray samples' mean unchanged and
never decreases the below-mid-gray sum; the below-mid-gray mean strictly
increases — and by strictly more than the above-mid-gray mean — whenever
some below-mid-gray sample value v survives 8-bit quantization, i.e.
amount·(255 − 2v) ≥ 1. -/
theorem claim_C8_shadow_lift_means (image : Img) (a : ℚ) (fresh : ℕ)
    (hv : image.Valid) (h0 : 0 < a) (h1 : a ≤ 1) :
    aboveMeanOn image (apply_shadow_lift image a fresh) = aboveMeanOn image image ∧
    belowSumOn image image ≤ belowSumOn image (apply_shadow_lift image a fresh) ∧
    (∀ x0 < image.w, ∀ y0 < image.h, ∀ c0 < 3,
      chanVal ((rgbBase image).px x0 y0) c0 ≤ 127 →
      1 ≤ a * (255 - 2 * (chanVal ((rgbBase image).px x0 y0) c0 : ℚ)) →
      belowMeanOn image image < belowMeanOn image (apply_shadow_lift image a fresh) ∧
      aboveMeanOn image (apply_shadow_lift image a fresh) - aboveMeanOn image image <
        belowMeanOn image (apply_shadow_lift image a fresh) - belowMeanOn image image) := by
  have hch := fun x y => rgbBase_shadow_lift image a fresh h0 h1 x y
  have hvb := valid_rgbBase image hv
  have hA : aboveSumOn image (apply_shadow_lift image a fresh)
      = aboveSumOn image image := by
    unfold aboveSumOn
    refine Finset.sum_congr rfl fun x hx => Finset.sum_congr rfl fun y hy =>
      Finset.sum_congr rfl fun c hcm => ?_
    rw [Finset.mem_range] at hx hy hcm
    by_cases hb : 128 ≤ chanVal ((rgbBase image).px x y) c
    · rw [if_pos hb, if_pos hb, hch x y c hcm,
        shadow_lift_above a hb (hvb x hx y hy c hcm)]
    · rw [if_neg hb, if_neg hb]
  have habove : aboveMeanOn image (apply_shadow_lift image a fresh)
      = aboveMeanOn image image := by
    unfold aboveMeanOn
    rw [hA]
  have hsplit : belowSumOn image (apply_shadow_lift image a fresh)
      = belowSumOn image image + boostSum image a := by
    unfold belowSumOn boostSum
    rw [← Finset.sum_add_distrib]
    refine Finset.sum_congr rfl fun x _ => ?_
    rw [← Finset.sum_add_distrib]
    refine Finset.sum_congr rfl fun y _ => ?_
    rw [← Finset.sum_add_distrib]
    refine Finset.sum_congr rfl fun c hcm => ?_
    rw [Finset.mem_range] at hcm
    by_cases hb : chanVal ((rgbBase image).px x y) c ≤ 127
    · rw [if_pos hb, if_pos hb, if_pos hb, hch x y c hcm,
        shadow_lift_below (le_of_lt h0) h1 hb]
    · rw [if_neg hb, if_neg hb, if_neg hb]
  have hle : belowSumOn image image ≤ belowSumOn image (apply_shadow_lift image a fresh) := by
    rw [hsplit]
    exact Nat.le_add_right _ _
  refine ⟨habove, hle, ?_⟩
  intro x0 hx0 y0 hy0 c0 hc0 hbelow hsurv
  have hcount1 : 1 ≤ belowCount image := by
    unfold belowCount
    calc (1 : ℕ)
        = (if chanVal ((rgbBase image).px x0 y0) c0 ≤ 127 then 1 else 0) := by
          rw [if_pos hbelow]
      _ ≤ ∑ c ∈ Finset.range 3,
            (if chanVal ((rgbBase image).px x0 y0) c ≤ 127 then 1 else 0) := by
          apply Finset.single_le_sum (fun i _ => Nat.zero_le _)
            (Finset.mem_range.mpr hc0)
      _ ≤ ∑ y ∈ Finset.range image.h, ∑ c ∈ Finset.range 3,
            (if chanVal ((rgbBase image).px x0 y) c ≤ 127 then 1 else 0) := by
          apply Finset.single_le_sum (fun i _ => Nat.zero_le _)
            (Finset.mem_range.mpr hy0)
      _ ≤ ∑ x ∈ Finset.range image.w, ∑ y ∈ Finset.range image.h,
            ∑ c ∈ Finset.range 3,
            (if chanVal ((rgbBase image).px x y) c ≤ 127 then 1 else 0) := by
          apply Finset.single_le_sum (fun i _ => Nat.zero_le _)
            (Finset.mem_range.mpr hx0)
  have hfl1 : 1 ≤ (⌊a * (255 - 2 * (chanVal ((rgbBase image).px x0 y0) c0 : ℚ))⌋).toNat := by
    have h := Int.le_floor.mpr (by exact_mod_cast hsurv :
      ((1 : ℤ) : ℚ) ≤ a * (255 - 2 * (chanVal ((rgbBase image).px x0 y0) c0 : ℚ)))
    omega
  have hboost1 : 1 ≤ boostSum image a := by
    unfold boostSum
    calc (1 : ℕ)
        ≤ (if chanVal ((rgbBase image).px x0 y0) c0 ≤ 127 then
            (⌊a * (255 - 2 * (chanVal ((rgbBase image).px x0 y0) c0 : ℚ))⌋).toNat
           else 0) := by
          rw [if_pos hbelow]
          exact hfl1
      _ ≤ ∑ c ∈ Finset.range 3,
            (if chanVal ((rgbBase image).px x0 y0) c ≤ 127 then
              (⌊a * (255 - 2 * (chanVal ((rgbBase image).px x0 y0) c : ℚ))⌋).toNat
             else 0) := by
          apply Finset.single_le_sum (fun i _ => Nat.zero_le _)
            (Finset.mem_range.mpr hc0)
      _ ≤ ∑ y ∈ Finset.range image.h, ∑ c ∈ Finset.range 3,
            (if chanVal ((rgbBase image).px x0 y) c ≤ 127 then
              (⌊a * (255 - 2 * (chanVal ((rgbBase image).px x0 y) c : ℚ))⌋).toNat
             else 0) := by
          apply Finset.single_le_sum (fun i _ => Nat.zero_le _)
            (Finset.mem_range.mpr hy0)
      _ ≤ ∑ x ∈ Finset.range image.w, ∑ y ∈ Finset.range image.h,
            ∑ c ∈ Finset.range 3,
            (if chanVal ((rgbBase image).px x y) c ≤ 127 then
              (⌊a * (255 - 2 * (chanVal ((rgbBase image).px x y) c : ℚ))⌋).toNat
             else 0) := by
          apply Finset.single_le_sum (fun i _ => Nat.zero_le _)
            (Finset.mem_range.mpr hx0)
  have hnQ : (0 : ℚ) < (belowCount image : ℚ) := by
    have h : 0 < belowCount image := hcount1
    exact_mod_cast h
  have hstrict : belowMeanOn image image
      < belowMeanOn image (apply_shadow_lift image a fresh) := by
    unfold belowMeanOn
    rw [hsplit]
    rw [div_lt_div_iff_of_pos_right hnQ]
    push_cast
    have hb : (1 : ℚ) ≤ (boostSum image a : ℚ) := by exact_mod_cast hboost1
    linarith
  exact ⟨hstrict, by rw [habove, sub_self]; exact sub_pos.mpr hstrict⟩

/-- A 1×1 RGB image of uniform value 100 (below mid-gray). -/
def imgC8 : Img := ⟨0, 1, 1, PMode.RGB, fun _ _ => ⟨100, 100, 100, 0⟩⟩

/-- Claim C8 counterexample: on the all-100 image, shadow lift with the
positive amount 0.003 adds 0.003·(255−200) = 0.165 < 1 to each channel,
which 8-bit truncation discards, so the below-mid-gray mean does not
strictly increase. -/
theorem claim_C8_counterexample :
    ¬ (belowMeanOn imgC8 imgC8 <
       belowMeanOn imgC8 (apply_shadow_lift imgC8 (3/1000) 1)) := by
  have hchan : ∀ c < 3,
      chanVal ((rgbBase (apply_shadow_lift imgC8 (3/1000) 1)).px 0 0) c = 100 := by
    intro c hc
    rw [rgbBase_shadow_lift imgC8 (3/1000) 1 (by norm_num) (by norm_num) 0 0 c hc]
    have hvc : chanVal ((rgbBase imgC8).px 0 0) c = 100 := by
      interval_cases c <;> rfl
    rw [hvc, shadow_lift_below (by norm_num) (by norm_num) (by norm_num)]
    have harg : (3 : ℚ)/1000 * (255 - 2 * ((100 : ℕ) : ℚ)) = 33/200 := by
      push_cast
      norm_num
    rw [harg, show ⌊(33 : ℚ)/200⌋ = 0 by
      rw [Int.floor_eq_zero_iff]
      constructor <;> norm_num]
    rfl
  have hsum : belowSumOn imgC8 (apply_shadow_lift imgC8 (3/1000) 1)
      = belowSumOn imgC8 imgC8 := by
    unfold belowSumOn
    have e0 := hchan 0 (by norm_num)
    have e1 := hchan 1 (by norm_num)
    have e2 := hchan 2 (by norm_num)
    simp only [show imgC8.w = 1 from rfl, show imgC8.h = 1 from rfl,
      Finset.sum_range_one, Finset.sum_range_succ, Finset.sum_range_zero]
    rw [e0, e1, e2]
    norm_num [rgbBase, imgC8, _split_alpha, _ensure_rgb, chanVal]
  intro hlt
  unfold belowMeanOn at hlt
  rw [hsum] at hlt
  exact lt_irrefl _ hlt

/-- A 1×1 RGB image of uniform value 50. -/
def imgC8b : Img := ⟨0, 1, 1, PMode.RGB, fun _ _ => ⟨50, 50, 50, 0⟩⟩

/-- Witness for the amended claim C8: amount 1/2 on the all-50 image
survives quantization, so the below-mid-gray mean strictly increases
while the above-mid-gray mean is unchanged. -/
theorem claim_C8_witness :
    imgC8b.Valid ∧ (0 : ℚ) < 1/2 ∧ (1/2 : ℚ) ≤ 1 ∧
    belowMeanOn imgC8b imgC8b <
      belowMeanOn imgC8b (apply_shadow_lift imgC8b (1/2) 1) ∧
    aboveMeanOn imgC8b (apply_shadow_lift imgC8b (1/2) 1)
        - aboveMeanOn imgC8b imgC8b <
      belowMeanOn imgC8b (apply_shadow_lift imgC8b (1/2) 1)
        - belowMeanOn imgC8b imgC8b := by
  have hv : imgC8b.Valid := by
    intro x _ y _ c hc
    rw [show imgC8b.mode = PMode.RGB from rfl] at hc
    simp only [numChannels] at hc
    interval_cases c <;> simp [imgC8b, chanVal]
  have h := claim_C8_shadow_lift_means imgC8b (1/2) 1 hv (by norm_num) (by norm_num)
  have hs := h.2.2 0 (by show (0:ℕ) < 1; norm_num) 0 (by show (0:ℕ) < 1; norm_num)
    0 (by norm_num)
    (by show (50 : ℕ) ≤ 127; norm_num)
    (by show (1 : ℚ) ≤ 1/2 * (255 - 2 * ((50 : ℕ) : ℚ)); push_cast; norm_num)
  exact ⟨hv, by norm_num, by norm_num, hs.1, hs.2⟩

/-! ## Claim C1 -/

/-- The failure conditions of a single operation named by claim C1: a
non-mapping entry, an unsupported (or missing) tag, a malformed resize or
crop or inpaint parameter set, an unknown aspect-ratio or crop preset, or
a missing mask file. -/
def BadOp (E : ExtOps) (fs : FS) (input : String)
    (presets : List (String × ℕ × ℕ)) : Option Operation → Prop
  | none => True
  | some op =>
      (op.type? ≠ some "resize" ∧ op.type? ≠ some "crop" ∧
       op.type? ≠ some "grade" ∧ op.type? ≠ some "inpaint" ∧
       op.type? ≠ some "material_enhance" ∧ op.type? ≠ some "enhance_materials") ∨
      (op.type? = some "resize" ∧ op.preset? = none ∧
        (op.width? = none ∨ op.height? = none)) ∨
      (op.type? = some "resize" ∧
        ∃ p, op.preset? = some p ∧ List.lookup p presets = none) ∨
      (op.type? = some "crop" ∧ op.preset? = none) ∨
      (op.type? = some "crop" ∧
        ∃ p, op.preset? = some p ∧ List.lookup p CROP_PRESETS = none) ∨
      (op.type? = some "inpaint" ∧ op.mask? = none) ∨
      (op.type? = some "inpaint" ∧
        ∃ p, op.mask? = some (MaskRef.path p) ∧ fs (E.joinPath input p) = none)

theorem BadOp_step_error (E : ExtOps) (fs : FS) (input : String)
    (presets : List (String × ℕ × ℕ)) (o : Option Operation)
    (hbad : BadOp E fs input presets o) (image : Img) :
    ∃ e, process_variant_step E fs input presets image o = .error e := by
  match o with
  | none => exact ⟨_, rfl⟩
  | some op =>
    simp only [BadOp] at hbad
    show ∃ e, process_variant_step E fs input presets image (some op) = .error e
    rw [show process_variant_step E fs input presets image (some op) =
      (if op.type? = some "resize" then
        match _resolve_resize_target op presets with
        | .error e => .error e
        | .ok size => .ok (resize_image E image size)
      else if op.type? = some "crop" then
        match op.preset? with
        | none => .error (.invalidParam "Crop operation must include a preset key.")
        | some preset => apply_crop_preset image preset op.offset?
      else if op.type? = some "grade" then
        .ok (apply_grading E image (some (gradingOf op)))
      else if op.type? = some "inpaint" then
        match op.mask? with
        | none => .error (.invalidParam "Inpaint operation requires a mask entry.")
        | some mask_ref =>
            match _resolve_mask E fs mask_ref input with
            | .error e => .error e
            | .ok mask_image =>
                .ok (inpaint_with_mask E image (.image mask_image)
                      (op.blur_radius?.getD 25) (op.feather_radius?.getD 8)
                      (op.strength?.getD 1))
      else if op.type? = some "material_enhance" ∨ op.type? = some "enhance_materials" then
        .ok (enhance_material_definition E image
              (op.clarity?.getD (6/5))
              ((op.micro_contrast? <|> op.texture?).getD (23/20))
              ((op.depth? <|> op.contrast?).getD (21/20))
              ((op.sheen? <|> op.saturation?).getD (21/20)))
      else .error (.invalidParam "Unsupported operation type")) from rfl]
    rcases hbad with ⟨h1, h2, h3, h4, h5, h6⟩ | ⟨ht, hp, hwh⟩ | ⟨ht, p, hp, hlook⟩ |
      ⟨ht, hp⟩ | ⟨ht, p, hp, hlook⟩ | ⟨ht, hm⟩ | ⟨ht, p, hm, hfs⟩
    · rw [if_neg h1, if_neg h2, if_neg h3, if_neg h4,
        if_neg (fun hor => hor.elim h5 h6)]
      exact ⟨_, rfl⟩
    · rw [if_pos ht]
      unfold _resolve_resize_target
      rw [hp]
      rcases hwh with hw | hh
      · rw [hw]
        cases op.height? <;> exact ⟨_, rfl⟩
      · rw [hh]
        cases op.width? <;> exact ⟨_, rfl⟩
    · rw [if_pos ht]
      unfold _resolve_resize_target
      rw [hp]
      dsimp only
      rw [hlook]
      exact ⟨_, rfl⟩
    · rw [if_neg (by rw [ht]; simp), if_pos ht, hp]
      exact ⟨_, rfl⟩
    · rw [if_neg (by rw [ht]; simp), if_pos ht, hp]
      dsimp only
      unfold apply_crop_preset
      rw [hlook]
      exact ⟨_, rfl⟩
    · rw [if_neg (by rw [ht]; simp), if_neg (by rw [ht]; simp),
        if_neg (by rw [ht]; simp), if_pos ht, hm]
      exact ⟨_, rfl⟩
    · rw [if_neg (by rw [ht]; simp), if_neg (by rw [ht]; simp),
        if_neg (by rw [ht]; simp), if_pos ht, hm]
      unfold _resolve_mask
      dsimp only
      rw [hfs]
      exact ⟨_, rfl⟩

theorem process_variant_ops_append (E : ExtOps) (fs : FS) (input : String)
    (presets : List (String × ℕ × ℕ)) (l1 l2 : List (Option Operation)) :
    ∀ image, process_variant_ops E fs input presets image (l1 ++ l2) =
      match process_variant_ops E fs input presets image l1 with
      | .error e => .error e
      | .ok image' => process_variant_ops E fs input presets image' l2 := by
  induction l1 with
  | nil => intro image; rfl
  | cons o rest ih =>
      intro image
      have hunf1 : process_variant_ops E fs input presets image ((o :: rest) ++ l2)
          = match process_variant_step E fs input presets image o with
            | Except.error e => (Except.error e : Except PError Img)
            | Except.ok image' =>
                process_variant_ops E fs input presets image' (rest ++ l2) := rfl
      have hunf2 : process_variant_ops E fs input presets image (o :: rest)
          = match process_variant_step E fs input presets image o with
            | Except.error e => (Except.error e : Except PError Img)
            | Except.ok image' =>
                process_variant_ops E fs input presets image' rest := rfl
      rw [hunf1, hunf2]
      cases process_variant_step E fs input presets image o with
      | error e => rfl
      | ok image' => exact ih image'

/-- Claim C1: failures are local to a task. Any bad operation (unsupported
tag, malformed operation, unknown preset, missing mask file) anywhere in
the operation list makes the loop fail; `process_variant` returns `False`
exactly when the pipeline fails and then leaves the file system untouched
(`save_image` is reached only after every operation succeeded); and the
scheduler accounts for every task and keeps processing after a failure. -/
theorem claim_C1_failure_isolation (E : ExtOps) (presets : List (String × ℕ × ℕ)) :
    (∀ (fs : FS) (input : String) (image : Img)
       (pre rest : List (Option Operation)) (bad : Option Operation),
       BadOp E fs input presets bad →
       ∃ e, process_variant_ops E fs input presets image (pre ++ bad :: rest)
         = .error e) ∧
    (∀ (fs : FS) (input output : String) (ops : List (Option Operation)),
      ((process_variant E fs input output ops presets).1 = false ↔
        ∃ e, (load_image fs input >>= fun image =>
          process_variant_ops E fs input presets image ops) = .error e) ∧
      ((process_variant E fs input output ops presets).1 = false →
        process_variant E fs input output ops presets = (false, fs)) ∧
      ((process_variant E fs input output ops presets).1 = true →
        ∃ image, (load_image fs input >>= fun image =>
            process_variant_ops E fs input presets image ops) = .ok image ∧
          process_variant E fs input output ops presets =
            (true, save_image fs image output ((lastQuality ops).getD 95)))) ∧
    (∀ (fs : FS) (tasks : List PipelineTask),
      (runTasks E presets fs tasks).1 + (runTasks E presets fs tasks).2.1
        = tasks.length) ∧
    (∀ (fs : FS) (t : PipelineTask) (rest : List PipelineTask),
      (process_variant E fs t.source t.output t.operations presets).1 = false →
      runTasks E presets fs (t :: rest) =
        ((runTasks E presets fs rest).1, (runTasks E presets fs rest).2.1 + 1,
         (runTasks E presets fs rest).2.2)) := by
  have hfalse_shape : ∀ (fs : FS) (input output : String)
      (ops : List (Option Operation)),
      (process_variant E fs input output ops presets).1 = false →
      process_variant E fs input output ops presets = (false, fs) := by
    intro fs input output ops h
    unfold process_variant at h ⊢
    cases hpipe : (load_image fs input >>= fun image =>
        process_variant_ops E fs input presets image ops) with
    | error e => rfl
    | ok image =>
        rw [hpipe] at h
        simp at h
  refine ⟨?_, ?_, ?_, ?_⟩
  · intro fs input image pre rest bad hbad
    rw [process_variant_ops_append E fs input presets pre (bad :: rest) image]
    cases hpre : process_variant_ops E fs input presets image pre with
    | error e => exact ⟨e, rfl⟩
    | ok image' =>
        dsimp only
        have hunf : process_variant_ops E fs input presets image' (bad :: rest)
            = match process_variant_step E fs input presets image' bad with
              | Except.error e => (Except.error e : Except PError Img)
              | Except.ok image'' =>
                  process_variant_ops E fs input presets image'' rest := rfl
        obtain ⟨e, he⟩ := BadOp_step_error E fs input presets bad hbad image'
        rw [hunf, he]
        exact ⟨e, rfl⟩
  · intro fs input output ops
    cases hpipe : (load_image fs input >>= fun image =>
        process_variant_ops E fs input presets image ops) with
    | error e =>
        have hpv : process_variant E fs input output ops presets = (false, fs) := by
          unfold process_variant
          rw [hpipe]
        refine ⟨⟨fun _ => ⟨e, rfl⟩, fun _ => by rw [hpv]⟩, fun _ => hpv, ?_⟩
        intro htrue
        rw [hpv] at htrue
        simp at htrue
    | ok image =>
        have hpv : process_variant E fs input output ops presets =
            (true, save_image fs image output ((lastQuality ops).getD 95)) := by
          unfold process_variant
          rw [hpipe]
        refine ⟨⟨?_, ?_⟩, ?_, fun _ => ⟨image, rfl, hpv⟩⟩
        · intro hfalse
          rw [hpv] at hfalse
          simp at hfalse
        · rintro ⟨e, he⟩
          exact (Except.noConfusion he)
        · intro hfalse
          rw [hpv] at hfalse
          simp at hfalse
  · intro fs tasks
    induction tasks generalizing fs with
    | nil => rfl
    | cons t rest ih =>
        show (runTasks E presets fs (t :: rest)).1
            + (runTasks E presets fs (t :: rest)).2.1 = rest.length + 1
        unfold runTasks
        dsimp only
        cases hb : (process_variant E fs t.source t.output t.operations presets).1 with
        | false =>
            simp only [hb, Bool.false_eq_true, if_false]
            have := ih (process_variant E fs t.source t.output t.operations presets).2
            omega
        | true =>
            simp only [hb, if_true]
            have := ih (process_variant E fs t.source t.output t.operations presets).2
            omega
  · intro fs t rest h
    have hpv := hfalse_shape fs t.source t.output t.operations h
    have hcons : runTasks E presets fs (t :: rest)
        = (if (process_variant E fs t.source t.output t.operations presets).1 = true
           then ((runTasks E presets
                    (process_variant E fs t.source t.output t.operations presets).2 rest).1 + 1,
                 (runTasks E presets
                    (process_variant E fs t.source t.output t.operations presets).2 rest).2.1,
                 (runTasks E presets
                    (process_variant E fs t.source t.output t.operations presets).2 rest).2.2)
           else ((runTasks E presets
                    (process_variant E fs t.source t.output t.operations presets).2 rest).1,
                 (runTasks E presets
                    (process_variant E fs t.source t.output t.operations presets).2 rest).2.1 + 1,
                 (runTasks E presets
                    (process_variant E fs t.source t.output t.operations presets).2 rest).2.2)) := rfl
    rw [hcons, hpv]
    simp

/-- A file system holding one source image. -/
def fsEx : FS := fun p => if p = "in.png" then some imgC6 else none

/-- An operation with an unsupported tag. -/
def badOpEx : Operation := { type? := some "warp" }

/-- A task whose single operation is unsupported. -/
def taskBad : PipelineTask := ⟨"in.png", "outA.png", [some badOpEx]⟩

/-- An independent task with an empty operation list. -/
def taskGood : PipelineTask := ⟨"in.png", "outB.png", []⟩

/-- Witness for claim C1: the unsupported-tag task fails, returns `False`
and writes nothing, while the independent second task in the same run
still succeeds and produces its output; the run reports 1 succeeded and
1 failed. -/
theorem claim_C1_witness :
    BadOp extOpsId fsEx "in.png" ASPECT_RATIO_PRESETS (some badOpEx) ∧
    process_variant extOpsId fsEx "in.png" "outA.png" [some badOpEx]
      ASPECT_RATIO_PRESETS = (false, fsEx) ∧
    (runTasks extOpsId ASPECT_RATIO_PRESETS fsEx [taskBad, taskGood]).1 = 1 ∧
    (runTasks extOpsId ASPECT_RATIO_PRESETS fsEx [taskBad, taskGood]).2.1 = 1 ∧
    (runTasks extOpsId ASPECT_RATIO_PRESETS fsEx [taskBad, taskGood]).2.2 "outB.png"
      = some imgC6 := by
  have hbad : BadOp extOpsId fsEx "in.png" ASPECT_RATIO_PRESETS (some badOpEx) := by
    left
    refine ⟨?_, ?_, ?_, ?_, ?_, ?_⟩ <;> decide
  have h := claim_C1_failure_isolation extOpsId ASPECT_RATIO_PRESETS
  obtain ⟨e, he⟩ := h.1 fsEx "in.png" imgC6 [] [] (some badOpEx) hbad
  have hpipe : (load_image fsEx "in.png" >>= fun image =>
      process_variant_ops extOpsId fsEx "in.png" ASPECT_RATIO_PRESETS image
        [some badOpEx]) = .error e := he
  have hb := h.2.1 fsEx "in.png" "outA.png" [some badOpEx]
  have hfalse : (process_variant extOpsId fsEx "in.png" "outA.png" [some badOpEx]
      ASPECT_RATIO_PRESETS).1 = false := hb.1.mpr ⟨e, hpipe⟩
  have hpair := hb.2.1 hfalse
  have hgood : process_variant extOpsId fsEx "in.png" "outB.png" []
      ASPECT_RATIO_PRESETS = (true, save_image fsEx imgC6 "outB.png" 95) := rfl
  have hrun : runTasks extOpsId ASPECT_RATIO_PRESETS fsEx [taskBad, taskGood]
      = (1, 1, save_image fsEx imgC6 "outB.png" 95) := by
    have hcons := h.2.2.2 fsEx taskBad [taskGood] hfalse
    rw [hcons]
    rw [show runTasks extOpsId ASPECT_RATIO_PRESETS fsEx [taskGood]
      = (1, 0, save_image fsEx imgC6 "outB.png" 95) from rfl]
  exact ⟨hbad, hpair, by rw [hrun], by rw [hrun], by rw [hrun]; rfl⟩
